import Mathlib

/-!
Verification development for the `usecasegen` repository: a CLI scaffolding
tool that generates use-case boilerplate files and patches two dependency
injection registry files by text substitution.

The JavaScript sources are shallowly embedded below:
- strings are Lean `String` (JS strings are sequences of UTF-16 code units;
  all data handled by this tool is ASCII, where the two notions coincide);
- the filesystem is an association list from path to file content
  (`fs.existsSync` is a lookup, `fs.writeFileSync` is an insert/update);
- JS regular-expression operations used by the tool are embedded as
  explicit recursive functions, each documented with the regex it models;
- `console.log` output and directory creation (`ensureDirExists`) have no
  effect on the modelled state and are dropped;
- `Char.toUpper`/`Char.toLower` model the ASCII fragment of the JS
  `toUpperCase`/`toLowerCase` (every identifier this tool handles is
  validated to the ASCII set `[a-z0-9-]`, where the two agree).
-/

namespace Usecasegen

/-! ## Generic character-list machinery (JS string primitive operations) -/

/-- Does the haystack start with the needle?  (Helper for `String.includes`.) -/
def startsWithChars : List Char → List Char → Bool
  | _, [] => true
  | [], _ :: _ => false
  | c :: cs, d :: ds => c == d && startsWithChars cs ds

/-- Does the needle occur as a contiguous substring of the haystack? -/
def containsChars (needle : List Char) : List Char → Bool
  | [] => startsWithChars [] needle
  | c :: cs => startsWithChars (c :: cs) needle || containsChars needle cs

/-- Embeds `hay.includes(needle)` from JS. -/
def jsIncludes (hay needle : String) : Bool :=
  containsChars needle.data hay.data

/-- Splits the haystack at the first occurrence of the needle, returning the
part before the match and the part after it (the needle itself consumed);
`none` when the needle does not occur. -/
def breakAtSub (needle : List Char) : List Char → Option (List Char × List Char)
  | [] => if startsWithChars [] needle then some ([], []) else none
  | c :: cs =>
    if startsWithChars (c :: cs) needle then
      some ([], List.drop needle.length (c :: cs))
    else
      match breakAtSub needle cs with
      | none => none
      | some (p, s) => some (c :: p, s)

/-- Splits the haystack just before the first occurrence of the needle (the
needle is kept in the second component); when the needle does not occur the
whole haystack goes into the first component.  Used for regex lookaheads. -/
def splitBeforeSub (needle : List Char) : List Char → List Char × List Char
  | [] => ([], [])
  | c :: cs =>
    if startsWithChars (c :: cs) needle then ([], c :: cs)
    else
      let r := splitBeforeSub needle cs
      (c :: r.1, r.2)

/-- Number of (possibly overlapping) occurrences of the needle. -/
def countOccChars (needle : List Char) : List Char → Nat
  | [] => if startsWithChars [] needle then 1 else 0
  | c :: cs => (if startsWithChars (c :: cs) needle then 1 else 0) + countOccChars needle cs

/-- Embeds the JS `str.split('-')` (single-character separator, empty
segments preserved, `"".split('-') = [""]`). -/
def jsSplitDash : List Char → List (List Char)
  | [] => [[]]
  | c :: cs =>
    if c = '-' then [] :: jsSplitDash cs
    else
      match jsSplitDash cs with
      | [] => [[c]]
      | s :: ss => (c :: s) :: ss

/-- Embeds `s.toUpperCase()` on the ASCII fragment. -/
def jsUpperStr (s : String) : String :=
  String.mk (s.data.map Char.toUpper)

/-- Embeds `s.replace(/X/g, "Y")` for single characters `X`, `Y`. -/
def jsReplaceAllChar (x y : Char) (s : String) : String :=
  String.mk (s.data.map fun c => if c = x then y else c)

/-! ## `lib/utils/string-utils.js` -/

/-- Embeds `word.charAt(0).toUpperCase() + word.slice(1).toLowerCase()`,
the per-segment transform of `toPascalCase` (and of `toCamelCase` on the
segments after the first).  `charAt(0)` of the empty string is `""`. -/
def capWord : List Char → List Char
  | [] => []
  | c :: cs => Char.toUpper c :: cs.map Char.toLower

/-- Embeds `word.charAt(0).toUpperCase() + word.slice(1)` — the variant used
inline in `lib/generators/file-generators.js` (no `toLowerCase` on the
tail). -/
def capWordRaw : List Char → List Char
  | [] => []
  | c :: cs => Char.toUpper c :: cs

/-- Embeds `toCamelCase` from `lib/utils/string-utils.js`: split on `-`,
lowercase the first segment, capitalize-and-lowercase each later segment,
join. -/
def toCamelCase (str : String) : String :=
  String.mk
    (match jsSplitDash str.data with
     | [] => []
     | w :: ws => w.map Char.toLower ++ (ws.map capWord).flatten)

/-- Embeds `toPascalCase` from `lib/utils/string-utils.js`: split on `-`,
capitalize-and-lowercase every segment, join. -/
def toPascalCase (str : String) : String :=
  String.mk ((jsSplitDash str.data).map capWord).flatten

/-- Embeds `toConstCase` from `lib/utils/string-utils.js`:
`str.toUpperCase()` followed by the global replacement of `-` by `_`. -/
def toConstCase (str : String) : String :=
  jsReplaceAllChar '-' '_' (jsUpperStr str)

/-- Embeds the camel-case join used inline in
`lib/generators/file-generators.js`:
`name.split('-').map((w, i) => i === 0 ? w : w.charAt(0).toUpperCase() + w.slice(1)).join('')`
(first segment untouched, later segments capitalized without lowercasing
the tail). -/
def inlineCamel (str : String) : String :=
  String.mk
    (match jsSplitDash str.data with
     | [] => []
     | w :: ws => w ++ (ws.map capWordRaw).flatten)

/-- Modelled from the spec: `src/src/lib/generators/use-case-generator.js`
imports `convertKebabToPascal` from `src/src/lib/utils/string-utils.js`,
a file absent from the provided sources.  Spec section 4.1 specifies the
conversion as the split-on-hyphen PascalCase algorithm, identical to the
`toPascalCase` that is present in `lib/utils/string-utils.js`. -/
def convertKebabToPascal (str : String) : String :=
  toPascalCase str

/-- Modelled from the spec: companion of `convertKebabToPascal` for the
camelCase form (spec section 4.1), identical to the `toCamelCase` present
in `lib/utils/string-utils.js`. -/
def convertKebabToCamel (str : String) : String :=
  toCamelCase str

/-! ## Validation (`src/bin/generate-usecase.js`, lines 22-29) -/

/-- Character class `[a-z]` of the kebab-case regex. -/
def isLowerAlphaChar (c : Char) : Bool :=
  'a' ≤ c && c ≤ 'z'

/-- Character class `[a-z0-9]` of the kebab-case regex. -/
def isLowerAlnumChar (c : Char) : Bool :=
  isLowerAlphaChar c || ('0' ≤ c && c ≤ '9')

/-- Embeds `validateKebabCase`, i.e. the test
`/^[a-z][a-z0-9]*(-[a-z0-9]+)*$/.test(input)`.  Splitting on `-` turns that
regex into: the first segment matches `[a-z][a-z0-9]*` and every later
segment matches `[a-z0-9]+` (segments cannot contain `-`, so the split is a
bijection between the two presentations). -/
def validateKebabCase (input : String) : Bool :=
  match jsSplitDash input.data with
  | [] => false
  | seg :: segs =>
    (match seg with
     | [] => false
     | c :: cs => isLowerAlphaChar c && cs.all isLowerAlnumChar)
    && segs.all fun t => !t.isEmpty && t.all isLowerAlnumChar

/-- Embeds `validateHttpMethod`: membership of `input.toUpperCase()` in
`['GET', 'POST', 'PUT', 'PATCH', 'DELETE']`. -/
def validateHttpMethod (input : String) : Bool :=
  ["GET", "POST", "PUT", "PATCH", "DELETE"].contains (jsUpperStr input)

/-! ## Filesystem model and `lib/utils/fs-utils.js` -/

/-- A filesystem state: an association list from file path to file content.
Directories are not modelled (`ensureDirExists` only creates directories
and never touches file content). -/
abbrev FS := List (String × String)

/-- Embeds `fs.existsSync` + `fs.readFileSync`: the content stored at a
path, if any. -/
def getFile : FS → String → Option String
  | [], _ => none
  | (q, v) :: rest, p => if q = p then some v else getFile rest p

/-- Embeds `fs.writeFileSync`: create the file or overwrite its content. -/
def setFile : FS → String → String → FS
  | [], p, c => [(p, c)]
  | (q, v) :: rest, p, c => if q = p then (q, c) :: rest else (q, v) :: setFile rest p c

/-- Embeds `writeFileIfNotExists` from `lib/utils/fs-utils.js` (lines
30-41): write the content only when the path does not exist; return `true`
when the file was created, `false` when it already existed.  The two log
messages have no modelled effect. -/
def writeFileIfNotExists (fs : FS) (filePath content : String) : FS × Bool :=
  if (getFile fs filePath).isSome then (fs, false)
  else (setFile fs filePath content, true)

/-! ## Target paths (resolved against the process working directory) -/

/-- Path of the base use-case interface (`use-case-generator.js`, line 204). -/
def baseUsecasePath : String := "src/domains/_base/base.usecase.ts"

/-- Path of the use-case interface file (`file-generators.js`, lines 63-66). -/
def interfacePath (domain usecaseName : String) : String :=
  "src/domains/" ++ domain ++ "/usecases/" ++ usecaseName ++ ".usecase.interface.ts"

/-- Path of the use-case implementation file (`file-generators.js`, lines 109-112). -/
def implementationPath (usecaseName : String) : String :=
  "src/application/use-cases/" ++ usecaseName ++ ".usecase.ts"

/-- Path of the API client file (`file-generators.js`, lines 157-160). -/
def apiClientPath (apiName : String) : String :=
  "src/infrastructure/api/" ++ apiName ++ "/" ++ apiName ++ ".api.ts"

/-- Path of the server action file (`file-generators.js`, lines 232-235). -/
def actionPath (usecaseCamelCase : String) : String :=
  "src/presenter/actions/" ++ usecaseCamelCase ++ ".action.ts"

/-- Path of the DI symbols registry (`use-case-generator.js`, line 24). -/
def symbolsPath : String := "src/di/symbols.ts"

/-- Path of the DI container registry (`use-case-generator.js`, line 102). -/
def containerPath : String := "src/di/container.ts"

/-! ## `lib/generators/file-generators.js` -/

/-- Embeds `generateApiMethodBody` (lines 16-52): the endpoint is
`/api/v1/` followed by the use-case name with every `-` replaced by `/`;
the body is selected by `httpMethod.toUpperCase()`, with a throwing
placeholder for unrecognized methods. -/
def generateApiMethodBody (usecaseName usecasePascalCase httpMethod : String) : String :=
  let endpoint := "/api/v1/" ++ jsReplaceAllChar '-' '/' usecaseName
  if jsUpperStr httpMethod = "GET" then
    ("return await this.apiClient.fetch<") ++ usecasePascalCase ++ "Output>(\x60" ++ endpoint ++
      "$\x7brequest.id ? \x60/$\x7brequest.id\x7d\x60 : \x27\x27\x7d\x60, \x7b\n      method: \x27GET\x27,\n    \x7d);"
  else if jsUpperStr httpMethod = "POST" then
    ("return await this.apiClient.fetch<") ++ usecasePascalCase ++ "Output>(\x27" ++ endpoint ++
      "\x27, \x7b\n      method: \x27POST\x27,\n      body: JSON.stringify(request),\n    \x7d);"
  else if jsUpperStr httpMethod = "PUT" then
    ("return await this.apiClient.fetch<") ++ usecasePascalCase ++ "Output>(\x60" ++ endpoint ++
      "/$\x7brequest.id\x7d\x60, \x7b\n      method: \x27PUT\x27,\n      body: JSON.stringify(request),\n    \x7d);"
  else if jsUpperStr httpMethod = "PATCH" then
    ("return await this.apiClient.fetch<") ++ usecasePascalCase ++ "Output>(\x60" ++ endpoint ++
      "/$\x7brequest.id\x7d\x60, \x7b\n      method: \x27PATCH\x27,\n      body: JSON.stringify(request),\n    \x7d);"
  else if jsUpperStr httpMethod = "DELETE" then
    ("return await this.apiClient.fetch<") ++ usecasePascalCase ++ "Output>(\x60" ++ endpoint ++
      "/$\x7brequest.id\x7d\x60, \x7b\n      method: \x27DELETE\x27,\n    \x7d);"
  else
    ("// TODO: Implement the API method for ") ++ httpMethod ++
      "\nthrow new Error(\x27Not implemented\x27);"

/-- Content of the use-case interface file (`file-generators.js`, lines 68-82). -/
def interfaceContent (usecasePascalCase : String) : String :=
  "import type \x7b IBaseUsecase \x7d from \"@/domains/_base/base.usecase\"\n\nexport type " ++
    usecasePascalCase ++ "Input = \x7b\n  // TODO: Define input properties for the use case\n  id?: string;\n\x7d\n\nexport type " ++
    usecasePascalCase ++ "Output = \x7b\n  // TODO: Define output properties for the use case\n  success: boolean;\n  data?: any;\n\x7d\n\nexport interface I" ++
    usecasePascalCase ++ "Usecase extends IBaseUsecase<" ++ usecasePascalCase ++ "Input, " ++
    usecasePascalCase ++ "Output> \x7b\x7d\n"

/-- Embeds `createUsecaseInterfaceFile` (lines 62-90). -/
def createUsecaseInterfaceFile (fs : FS) (domain usecaseName usecasePascalCase : String) :
    FS × Bool :=
  writeFileIfNotExists fs (interfacePath domain usecaseName) (interfaceContent usecasePascalCase)

/-- Embeds the inline regex `apiPascalCase.replace(/([a-z0-9])([A-Z])/g, '$1-$2')`
of `file-generators.js` line 115: a dash is inserted between every
lower-or-digit character followed by an uppercase character.  (Because an
uppercase character can never be the first of a new match, the global
regex's left-to-right consumption coincides with this pairwise scan.) -/
def dashBetweenCase : List Char → List Char
  | c1 :: c2 :: rest =>
    if (isLowerAlnumChar c1 && ('A' ≤ c2 && c2 ≤ 'Z')) then
      c1 :: '-' :: dashBetweenCase (c2 :: rest)
    else c1 :: dashBetweenCase (c2 :: rest)
  | l => l

/-- Embeds line 115 of `file-generators.js`: recover the kebab-case API
name from its PascalCase form (dash-insertion then `toLowerCase`). -/
def jsDePascalToKebab (s : String) : String :=
  String.mk ((dashBetweenCase s.data).map Char.toLower)

/-- Content of the use-case implementation file (`file-generators.js`,
lines 114-136), including the inline camel-case joins of the API name and
the use-case name. -/
def implementationContent (domain usecaseName usecasePascalCase apiPascalCase apiSymbol : String) :
    String :=
  let apiName := jsDePascalToKebab apiPascalCase
  let apiCam := inlineCamel apiName
  ("import \x7b API \x7d from \"@/di/symbols\"\nimport \x7b inject, injectable \x7d from \"tsyringe\"\nimport \x7b ") ++
    apiPascalCase ++ "Api \x7d from \"@/infrastructure/api/" ++ apiName ++ "/" ++ apiName ++
    ".api\"\nimport \x7b I" ++ usecasePascalCase ++ "Usecase, " ++ usecasePascalCase ++ "Input, " ++
    usecasePascalCase ++ "Output \x7d from \"@/domains/" ++ domain ++ "/usecases/" ++ usecaseName ++
    ".usecase.interface\"\n\n@injectable()\nexport class " ++ usecasePascalCase ++
    "Usecase implements I" ++ usecasePascalCase ++ "Usecase \x7b\n  constructor(@inject(API." ++
    apiSymbol ++ ") private readonly " ++ apiCam ++ "Api: " ++ apiPascalCase ++
    "Api) \x7b\x7d\n\n  async execute(request: " ++ usecasePascalCase ++ "Input): Promise<" ++
    usecasePascalCase ++ "Output> \x7b\n    return this." ++ apiCam ++ "Api." ++
    inlineCamel usecaseName ++ "(request)\n  \x7d\n\x7d\n"

/-- Embeds `createUsecaseImplementationFile` (lines 102-144). -/
def createUsecaseImplementationFile
    (fs : FS) (domain usecaseName usecasePascalCase apiPascalCase apiSymbol : String) :
    FS × Bool :=
  writeFileIfNotExists fs (implementationPath usecaseName)
    (implementationContent domain usecaseName usecasePascalCase apiPascalCase apiSymbol)

/-- Content of a freshly created API client file (`file-generators.js`,
lines 164-184); the PascalCase API name is recomputed inline from the
kebab-case name exactly as on lines 164-166. -/
def apiClientNewContent (domain apiName usecaseName usecasePascalCase httpMethod : String) :
    String :=
  let apiPascalCase := String.mk ((jsSplitDash apiName.data).map capWord).flatten
  ("import \x7b BASE \x7d from \x27@/di/symbols\x27\nimport \x7b inject, injectable \x7d from \x27tsyringe\x27\nimport \x7b ApiClient \x7d from \x27@/infrastructure/utils/apiClient\x27\n\nimport type \x7b ") ++
    usecasePascalCase ++ "Input, " ++ usecasePascalCase ++ "Output \x7d from \x27@/domains/" ++
    domain ++ "/usecases/" ++ usecaseName ++
    ".usecase.interface\x27\n\n@injectable()\nexport class " ++ apiPascalCase ++
    "Api \x7b\n  constructor(@inject(BASE.API_CLIENT) private readonly apiClient: ApiClient) \x7b\x7d\n\n  async " ++
    inlineCamel usecaseName ++ "(request: " ++ usecasePascalCase ++ "Input): Promise<" ++
    usecasePascalCase ++ "Output> \x7b\n    " ++
    generateApiMethodBody usecaseName usecasePascalCase httpMethod ++ "\n  \x7d\n\x7d\n"

/-- The import statement added when a new method joins an existing API
client file (`file-generators.js`, line 200). -/
def apiImportStatement (domain usecaseName usecasePascalCase : String) : String :=
  "import type \x7b " ++ usecasePascalCase ++ "Input, " ++ usecasePascalCase ++
    "Output \x7d from \x27@/domains/" ++ domain ++ "/usecases/" ++ usecaseName ++
    ".usecase.interface\x27"

/-- Finds the leftmost match of the JS regex `import.*from.*\n` (and, when
`lookahead` is set, of `import.*from.*\n(?!import)`): a position where the
literal `import` starts, followed on the same line by `from`, the match
extending to the end-of-line newline inclusive; with the lookahead, the
text after that newline must not start with `import`.  Returns
`(prefix, match, rest)`. -/
def findImportLine (lookahead : Bool) : List Char → Option (List Char × List Char × List Char)
  | [] => none
  | c :: cs =>
    let l := c :: cs
    let line := l.takeWhile (fun x => x ≠ '\n')
    let rest := l.drop (line.length + 1)
    if startsWithChars l ("import").data
        && containsChars ("from").data (line.drop 6)
        && decide (line.length < l.length)
        && (!lookahead || !startsWithChars rest ("import").data) then
      some ([], line ++ ['\n'], rest)
    else
      match findImportLine lookahead cs with
      | none => none
      | some (p, m, r) => some (c :: p, m, r)

/-- Embeds `content.replace(/import.*from.*\n/, m => m + stmt + '\n')`
(and its lookahead variant): insert `stmt` as a new line after the first
matching import line; unchanged when there is no match. -/
def jsInsertImport (stmt : String) (lookahead : Bool) (content : String) : String :=
  match findImportLine lookahead content.data with
  | none => content
  | some (p, m, r) => String.mk (p ++ m ++ stmt.data ++ '\n' :: r)

/-- Embeds `content.replace(/}$/, repl)` from `file-generators.js` line
209.  In JS (without the `m` flag) `$` matches only at the very end of the
string — in particular it does not match before a trailing newline — so
the replacement fires exactly when the last character is `}`. -/
def jsReplaceEndBrace (replacement content : String) : String :=
  if content.data.getLast? = some '\x7d' then
    String.mk (content.data.dropLast ++ replacement.data)
  else content

/-- Embeds `createOrUpdateApiClientFile` (lines 156-219).  When the file
exists, the method presence test is `content.includes('async ' + camel)`;
a missing method triggers the import insertion and the `/}$/` append. -/
def createOrUpdateApiClientFile
    (fs : FS) (domain apiName usecaseName usecasePascalCase httpMethod : String) : FS × Bool :=
  match getFile fs (apiClientPath apiName) with
  | none =>
    (setFile fs (apiClientPath apiName)
      (apiClientNewContent domain apiName usecaseName usecasePascalCase httpMethod), true)
  | some content =>
    let usecaseCamelCase := inlineCamel usecaseName
    if !jsIncludes content ("async " ++ usecaseCamelCase) then
      let content1 :=
        if !jsIncludes content (usecasePascalCase ++ "Input") then
          jsInsertImport (apiImportStatement domain usecaseName usecasePascalCase) false content
        else content
      let methodContent :=
        "\n  async " ++ usecaseCamelCase ++ "(request: " ++ usecasePascalCase ++
          "Input): Promise<" ++ usecasePascalCase ++ "Output> \x7b\n    " ++
          generateApiMethodBody usecaseName usecasePascalCase httpMethod ++ "\n  \x7d\n\x7d"
      let content2 := jsReplaceEndBrace methodContent content1
      (setFile fs (apiClientPath apiName) content2, true)
    else (fs, false)

/-- Content of the server action file (`file-generators.js`, lines 237-249). -/
def actionContent (usecaseCamelCase usecasePascalCase usecaseSymbol domain usecaseName : String) :
    String :=
  "\x27use server\x27\n\nimport \x7b USE_CASES \x7d from \"@/di/symbols\"\nimport \x7b container \x7d from \"@/di/container\"\nimport \x7b I" ++
    usecasePascalCase ++ "Usecase, " ++ usecasePascalCase ++ "Input \x7d from \"@/domains/" ++
    domain ++ "/usecases/" ++ usecaseName ++ ".usecase.interface\"\n\nexport async function " ++
    usecaseCamelCase ++ "(\n  input: " ++ usecasePascalCase ++ "Input\n) \x7b\n  const " ++
    usecaseCamelCase ++ "Usecase = container.resolve<I" ++ usecasePascalCase ++
    "Usecase>(USE_CASES." ++ usecaseSymbol ++ ")\n  return await " ++ usecaseCamelCase ++
    "Usecase.execute(input)\n\x7d\n"

/-- Embeds `createActionFile` (lines 231-257). -/
def createActionFile
    (fs : FS) (usecaseCamelCase usecasePascalCase usecaseSymbol domain usecaseName : String) :
    FS × Bool :=
  writeFileIfNotExists fs (actionPath usecaseCamelCase)
    (actionContent usecaseCamelCase usecasePascalCase usecaseSymbol domain usecaseName)

/-! ## `src/lib/generators/use-case-generator.js` -/

/-- Content of a freshly created DI symbols file (`use-case-generator.js`,
lines 28-47). -/
def symbolsNewContent (usecaseSymbol : String) : String :=
  "/**\n * Dependency Injection symbols\n */\n\nexport const BASE = \x7b\n  API_CLIENT: Symbol(\x27API_CLIENT\x27),\n\x7d\n\nexport const API = \x7b\n  // API symbols will be registered here\n\x7d\n\nexport const USE_CASES = \x7b\n  " ++
    usecaseSymbol ++ ": Symbol(\x27" ++ usecaseSymbol ++
    "\x27),\n\x7d\n\nexport const REPOSITORIES = \x7b\n  // Repository symbols will be registered here\n\x7d\n"

/-- Embeds the replace on lines 70-81 of `use-case-generator.js`, whose
regex is `export const USE_CASES = \x7b([\s\S]*?)\x7d` (lazy group): the
match starts at the first occurrence of the literal header, the group
captures up to the first following `\x7d`, and the replacement re-emits
the header and the captured inside followed by the new symbol entry.  When
the regex has no match (header present but no closing brace after it) the
content is returned unchanged, as JS `replace` does. -/
def jsReplaceUseCasesBlock (usecaseSymbol : String) (content : String) : String :=
  match breakAtSub ("export const USE_CASES = \x7b").data content.data with
  | none => content
  | some (pre, suf) =>
    let inside := suf.takeWhile (fun c => c ≠ '\x7d')
    if inside.length = suf.length then content
    else
      let post := suf.drop (inside.length + 1)
      let insideStr := String.mk inside
      let repl : String :=
        if insideStr.trim = "" then
          ("export const USE_CASES = \x7b\n  ") ++ usecaseSymbol ++ ": Symbol(\x27" ++
            usecaseSymbol ++ "\x27),\n\x7d"
        else
          ("export const USE_CASES = \x7b") ++ insideStr ++ "  " ++ usecaseSymbol ++
            ": Symbol(\x27" ++ usecaseSymbol ++ "\x27),\n\x7d"
      String.mk (pre ++ repl.data ++ post)

/-- Embeds `registerUsecaseInDI` (lines 23-91): create the symbols file
from a template when absent (returning `true`); otherwise report `false`
when `usecaseSymbol + ':'` occurs anywhere in the file, else patch the
`USE_CASES` block (returning `true`) or report `false` when the block
header is missing.  The `usecaseName` parameter is unused, as in the
source. -/
def registerUsecaseInDI (fs : FS) (usecaseName usecaseSymbol : String) : FS × Bool :=
  match getFile fs symbolsPath with
  | none =>
    let w := writeFileIfNotExists fs symbolsPath (symbolsNewContent usecaseSymbol)
    (w.1, true)
  | some content =>
    if jsIncludes content (usecaseSymbol ++ ":") then (fs, false)
    else if jsIncludes content ("export const USE_CASES = \x7b") then
      (setFile fs symbolsPath (jsReplaceUseCasesBlock usecaseSymbol content), true)
    else (fs, false)

/-- Content of a freshly created DI container file (`use-case-generator.js`,
lines 108-127).  The `checkTsyringeDependency` call preceding it only reads
`package.json` and logs; it has no modelled effect. -/
def containerNewContent (usecaseName usecasePascalCase usecaseSymbol : String) : String :=
  "/**\n * Dependency Injection container\n */\nimport \x27reflect-metadata\x27;\nimport \x7b container \x7d from \x27tsyringe\x27;\nimport \x7b USE_CASES, API, BASE \x7d from \x27./symbols\x27;\nimport \x7b ApiClient \x7d from \x27@/infrastructure/utils/apiClient\x27;\nimport \x7b " ++
    usecasePascalCase ++ "Usecase \x7d from \x27@/application/use-cases/" ++ usecaseName ++
    ".usecase\x27;\n\n// Register base dependencies\ncontainer.register(BASE.API_CLIENT, \x7b useClass: ApiClient \x7d);\n\n// Register API clients\n// TODO: Register API clients here\n\n// Register use cases\ncontainer.register(USE_CASES." ++
    usecaseSymbol ++ ", \x7b useClass: " ++ usecasePascalCase ++
    "Usecase \x7d);\n\nexport \x7b container \x7d;\n"

/-- Embeds the replace on lines 157-160 of `use-case-generator.js`, whose
regex is `\/\/ Register use cases\n([\s\S]*?)(?=\n\n|$)` with a replacer
that emits the comment line followed by the single new registration (the
replacer's ternary contributes the empty string on both branches, so any
previously captured block text is dropped).  The lazy group runs from the
comment line to just before the first blank line (or to the end), and the
lookahead part is not consumed. -/
def jsReplaceRegisterBlock (registration : String) (content : String) : String :=
  match breakAtSub ("// Register use cases\n").data content.data with
  | none => content
  | some (pre, suf) =>
    let r := splitBeforeSub ("\n\n").data suf
    String.mk (pre ++ ("// Register use cases\n" ++ registration ++ "\n").data ++ r.2)

/-- Embeds a plain first-occurrence string replace,
`content.replace(/literal/, replacement)` for a literal pattern. -/
def jsReplaceFirstSub (needle replacement content : String) : String :=
  match breakAtSub needle.data content.data with
  | none => content
  | some (pre, post) => String.mk (pre ++ replacement.data ++ post)

/-- Embeds `registerUsecaseInContainer` (lines 101-172): create the
container file from a template when absent (returning `true`); otherwise
report `false` when `usecasePascalCase + 'Usecase'` occurs anywhere in the
file, else insert the import line (unless already present), insert the
registration (into the `// Register use cases` block when that marker
occurs, otherwise before `export { container };`), write and return
`true`. -/
def registerUsecaseInContainer
    (fs : FS) (usecaseName usecasePascalCase usecaseSymbol : String) : FS × Bool :=
  match getFile fs containerPath with
  | none =>
    let w := writeFileIfNotExists fs containerPath
      (containerNewContent usecaseName usecasePascalCase usecaseSymbol)
    (w.1, true)
  | some content =>
    if jsIncludes content (usecasePascalCase ++ "Usecase") then (fs, false)
    else
      let importStmt := "import \x7b " ++ usecasePascalCase ++
        "Usecase \x7d from \x27@/application/use-cases/" ++ usecaseName ++ ".usecase\x27;"
      let content1 :=
        if !jsIncludes content ("import \x7b " ++ usecasePascalCase ++ "Usecase \x7d") then
          jsInsertImport importStmt true content
        else content
      let registration := "container.register(USE_CASES." ++ usecaseSymbol ++
        ", \x7b useClass: " ++ usecasePascalCase ++ "Usecase \x7d);"
      let content2 :=
        if jsIncludes content1 ("// Register use cases") then
          jsReplaceRegisterBlock registration content1
        else
          jsReplaceFirstSub ("export \x7b container \x7d;")
            ("// Register use cases\n" ++ registration ++ "\n\nexport \x7b container \x7d;")
            content1
      (setFile fs containerPath content2, true)

/-- Content of the base use-case interface (`use-case-generator.js`,
lines 208-214). -/
def baseUsecaseContent : String :=
  "/**\n * Base usecase interface that all usecases should implement\n */\nexport interface IBaseUsecase<TInput, TOutput> \x7b\n  execute(request: TInput): Promise<TOutput>;\n\x7d\n"

/-- Embeds the inline symbol derivation of `use-case-generator.js` lines
194-195: `name.toUpperCase()` followed by the global replacement of `-`
by `_` (textually the same
computation as `toConstCase`, but written inline in the source). -/
def jsUpperUnderscore (s : String) : String :=
  jsReplaceAllChar '-' '_' (jsUpperStr s)

/-- The record returned by `generateUsecase` (lines 221-228). -/
structure GenerateResults where
  interface : Bool
  implementation : Bool
  apiClient : Bool
  action : Bool
  diSymbol : Bool
  diContainer : Bool
  deriving Repr, DecidableEq

/-- Embeds `generateUsecase` (lines 184-233): derive the naming variants
and DI symbols, write the base use-case interface when absent, then run
the four file generators and the two registry updates in order.  The
`httpMethod` option carries the JS default parameter `= 'GET'`
(`Option.getD`). -/
def generateUsecase (fs : FS) (domain usecaseName apiName : String)
    (httpMethod : Option String) : FS × GenerateResults :=
  let httpMethodVal := httpMethod.getD ("GET")
  let usecasePascalCase := convertKebabToPascal usecaseName
  let usecaseCamelCase := convertKebabToCamel usecaseName
  let apiPascalCase := convertKebabToPascal apiName
  let usecaseSymbol := jsUpperUnderscore usecaseName
  let apiSymbol := jsUpperUnderscore apiName
  let fsB :=
    if (getFile fs baseUsecasePath).isSome then fs
    else setFile fs baseUsecasePath baseUsecaseContent
  let ri := createUsecaseInterfaceFile fsB domain usecaseName usecasePascalCase
  let rm := createUsecaseImplementationFile ri.1 domain usecaseName usecasePascalCase
    apiPascalCase apiSymbol
  let ra := createOrUpdateApiClientFile rm.1 domain apiName usecaseName usecasePascalCase
    httpMethodVal
  let rt := createActionFile ra.1 usecaseCamelCase usecasePascalCase usecaseSymbol domain
    usecaseName
  let rs := registerUsecaseInDI rt.1 usecaseName usecaseSymbol
  let rc := registerUsecaseInContainer rs.1 usecaseName usecasePascalCase usecaseSymbol
  (rc.1, ⟨ri.2, rm.2, ra.2, rt.2, rs.2, rc.2⟩)

/-! ## CLI argument mode (`src/bin/generate-usecase.js`, lines 95-171) -/

/-- Embeds `args.indexOf(flag)` (first index, `-1` when absent). -/
def jsIndexOf (xs : List String) (x : String) : Int :=
  match xs.findIdx? (fun y => y = x) with
  | none => -1
  | some i => i

/-- Embeds `args[i]`: `undefined` (here `none`) outside the array bounds. -/
def jsGetAt (xs : List String) (i : Int) : Option String :=
  if i < 0 then none else xs.get? i.toNat

/-- Embeds the JS `a || b` on (possibly undefined) strings: `a` when it is
truthy (present and nonempty), otherwise `b`. -/
def jsOrOpt (a b : Option String) : Option String :=
  match a with
  | some s => if s.isEmpty then b else some s
  | none => b

/-- The `options` object parsed on lines 117-122. -/
structure CliOptions where
  domain : Option String
  usecaseName : Option String
  apiName : Option String
  httpMethod : Option String
  deriving Repr, DecidableEq

/-- Embeds the argument extraction of lines 117-122:
`args[args.indexOf('--flag') + 1] || args[args.indexOf('-f') + 1]`. -/
def parseCliOptions (args : List String) : CliOptions :=
  ⟨jsOrOpt (jsGetAt args (jsIndexOf args ("--domain") + 1)) (jsGetAt args (jsIndexOf args ("-d") + 1)),
   jsOrOpt (jsGetAt args (jsIndexOf args ("--usecase") + 1)) (jsGetAt args (jsIndexOf args ("-u") + 1)),
   jsOrOpt (jsGetAt args (jsIndexOf args ("--api") + 1)) (jsGetAt args (jsIndexOf args ("-a") + 1)),
   jsOrOpt (jsGetAt args (jsIndexOf args ("--method") + 1)) (jsGetAt args (jsIndexOf args ("-m") + 1))⟩

/-- Embeds the per-option validity check of lines 127-145: the option must
be truthy (present and nonempty) and satisfy its validator. -/
def optionArgValid (validate : String → Bool) (o : Option String) : Bool :=
  match o with
  | none => false
  | some s => !s.isEmpty && validate s

/-- Embeds the CLI argument mode (lines 95-171, entered when arguments are
present): `--help`/`-h` exits with code `0`; otherwise the four options
are validated, a failure printing the errors and exiting with code `1`
without touching the filesystem, and success running `generateUsecase`
with the upper-cased method and exiting with code `0`.  The result is the
final filesystem together with the process exit code. -/
def cliArgsMode (fs : FS) (args : List String) : FS × Nat :=
  if args.contains ("--help") || args.contains ("-h") then (fs, 0)
  else
    let o := parseCliOptions args
    if optionArgValid validateKebabCase o.domain &&
        optionArgValid validateKebabCase o.usecaseName &&
        optionArgValid validateKebabCase o.apiName &&
        optionArgValid validateHttpMethod o.httpMethod then
      ((generateUsecase fs (o.domain.getD ("")) (o.usecaseName.getD ("")) (o.apiName.getD (""))
          (some (jsUpperStr (o.httpMethod.getD (""))))).1, 0)
    else (fs, 1)

/-! ## Analysis helpers for registry files (spec section 3, EntryGroup) -/

/-- The text of a named entry-group region of a registry file: everything
after the group header up to (excluding) the next closing brace; empty
when the header does not occur. -/
def entryGroupRegion (content header : String) : String :=
  match breakAtSub header.data content.data with
  | none => ""
  | some (_, suf) => String.mk (suf.takeWhile fun c => c ≠ '\x7d')

/-- Number of symbol entries (occurrences of `: Symbol(`) in a region. -/
def symbolEntryCount (region : String) : Nat :=
  countOccChars (": Symbol(").data region.data

/-! ## Spec-side and claim-side auxiliary definitions (claims C7, C8) -/

/-- Spec-side camelCase (spec section 4.1 wording): split on `-`,
lowercase the first segment, uppercase the first letter of each
subsequent segment (the wording does not lowercase the segment tails). -/
def specCamelCase (str : String) : String :=
  String.mk
    (match jsSplitDash str.data with
     | [] => []
     | w :: ws => w.map Char.toLower ++ (ws.map capWordRaw).flatten)

/-- Spec-side PascalCase (spec section 4.1 wording): uppercase the first
letter of every segment. -/
def specPascalCase (str : String) : String :=
  String.mk ((jsSplitDash str.data).map capWordRaw).flatten

/-- Spec-side CONST_CASE (spec section 4.1 wording): uppercase the whole
identifier and replace `-` with `_`. -/
def specConstCase (str : String) : String :=
  jsReplaceAllChar '-' '_' (jsUpperStr str)

/-- Claim-side segmentwise CONST_CASE form (for the amended C8): the
hyphen segments, each uppercased, joined with `_`. -/
def underscoreJoin : List (List Char) → List Char
  | [] => []
  | [w] => w
  | w :: ws => w ++ '_' :: underscoreJoin ws

/-- Claim-side inverse of the per-character CONST_CASE map (for the
injectivity part of the amended C8). -/
def constCaseUnmap (c : Char) : Char :=
  if c = '_' then '-' else Char.toLower c

/-! ## Generic lemmas about the character-list machinery -/

theorem startsWithChars_append (n rest : List Char) :
    startsWithChars (n ++ rest) n = true := by
  induction n with
  | nil => cases rest <;> rfl
  | cons c cs ih => simp [startsWithChars, ih]

theorem containsChars_append_left (p h n : List Char)
    (hc : containsChars n h = true) : containsChars n (p ++ h) = true := by
  induction p with
  | nil => simpa using hc
  | cons c cs ih => simp [containsChars, ih]

theorem containsChars_prefix_chunks (x y rest : List Char) :
    containsChars (x ++ y) (x ++ (y ++ rest)) = true := by
  have : x ++ (y ++ rest) = (x ++ y) ++ rest := by simp
  rw [this]
  cases hxy : (x ++ y) ++ rest with
  | nil => simp_all [containsChars, startsWithChars]
  | cons c cs =>
    have := startsWithChars_append (x ++ y) rest
    rw [hxy] at this
    simp [containsChars, this]

theorem containsChars_self (n rest : List Char) :
    containsChars n (n ++ rest) = true := by
  have := containsChars_prefix_chunks n [] rest
  simpa using this

theorem take_append_le :
    ∀ (n : Nat) (l₁ l₂ : List Char), n ≤ l₁.length → (l₁ ++ l₂).take n = l₁.take n := by
  intro n
  induction n with
  | zero => intro l₁ l₂ _; simp
  | succ k ih =>
    intro l₁ l₂ hlen
    cases l₁ with
    | nil => simp at hlen
    | cons c cs =>
      simp only [List.cons_append, List.take_succ_cons]
      rw [ih cs l₂ (by simpa using hlen)]

theorem ne_of_take7 {s t : String} (h : s.data.take 7 ≠ t.data.take 7) : s ≠ t := by
  intro he; exact h (by rw [he])

/-! ## Path disjointness -/

theorem take7_interfacePath (d u : String) :
    (interfacePath d u).data.take 7 = "src/dom".data := by
  simp only [interfacePath, String.data_append, List.append_assoc]
  rw [take_append_le 7 ("src/domains/").data _ (by decide)]; decide

theorem take7_implementationPath (u : String) :
    (implementationPath u).data.take 7 = "src/app".data := by
  simp only [implementationPath, String.data_append, List.append_assoc]
  rw [take_append_le 7 ("src/application/use-cases/").data _ (by decide)]; decide

theorem take7_apiClientPath (a : String) :
    (apiClientPath a).data.take 7 = "src/inf".data := by
  simp only [apiClientPath, String.data_append, List.append_assoc]
  rw [take_append_le 7 ("src/infrastructure/api/").data _ (by decide)]; decide

theorem take7_actionPath (c : String) :
    (actionPath c).data.take 7 = "src/pre".data := by
  simp only [actionPath, String.data_append, List.append_assoc]
  rw [take_append_le 7 ("src/presenter/actions/").data _ (by decide)]; decide

theorem apiClientPath_ne_base (a : String) : apiClientPath a ≠ baseUsecasePath := by
  refine ne_of_take7 ?_
  rw [take7_apiClientPath]; decide

theorem apiClientPath_ne_interface (a d u : String) : apiClientPath a ≠ interfacePath d u := by
  refine ne_of_take7 ?_
  rw [take7_apiClientPath, take7_interfacePath]; decide

theorem apiClientPath_ne_implementation (a u : String) :
    apiClientPath a ≠ implementationPath u := by
  refine ne_of_take7 ?_
  rw [take7_apiClientPath, take7_implementationPath]; decide

theorem apiClientPath_ne_action (a c : String) : apiClientPath a ≠ actionPath c := by
  refine ne_of_take7 ?_
  rw [take7_apiClientPath, take7_actionPath]; decide

theorem apiClientPath_ne_symbols (a : String) : apiClientPath a ≠ symbolsPath := by
  refine ne_of_take7 ?_
  rw [take7_apiClientPath]; decide

theorem apiClientPath_ne_container (a : String) : apiClientPath a ≠ containerPath := by
  refine ne_of_take7 ?_
  rw [take7_apiClientPath]; decide

theorem baseUsecasePath_ne_action (c : String) : baseUsecasePath ≠ actionPath c := by
  refine ne_of_take7 ?_
  rw [take7_actionPath]; decide

theorem symbolsPath_ne_base : symbolsPath ≠ baseUsecasePath := by decide

theorem containerPath_ne_base : containerPath ≠ baseUsecasePath := by decide

theorem symbolsPath_ne_container : symbolsPath ≠ containerPath := by decide

theorem symbolsPath_ne_interface (d u : String) : symbolsPath ≠ interfacePath d u := by
  refine ne_of_take7 ?_
  rw [take7_interfacePath]; decide

theorem symbolsPath_ne_implementation (u : String) : symbolsPath ≠ implementationPath u := by
  refine ne_of_take7 ?_
  rw [take7_implementationPath]; decide

theorem symbolsPath_ne_action (c : String) : symbolsPath ≠ actionPath c := by
  refine ne_of_take7 ?_
  rw [take7_actionPath]; decide

theorem containerPath_ne_interface (d u : String) : containerPath ≠ interfacePath d u := by
  refine ne_of_take7 ?_
  rw [take7_interfacePath]; decide

theorem containerPath_ne_implementation (u : String) : containerPath ≠ implementationPath u := by
  refine ne_of_take7 ?_
  rw [take7_implementationPath]; decide

theorem containerPath_ne_action (c : String) : containerPath ≠ actionPath c := by
  refine ne_of_take7 ?_
  rw [take7_actionPath]; decide

/-! ## Lemmas about the filesystem model -/

theorem getFile_setFile_self (fs : FS) (p c : String) :
    getFile (setFile fs p c) p = some c := by
  induction fs with
  | nil => simp [setFile, getFile]
  | cons e rest ih =>
    obtain ⟨q, v⟩ := e
    by_cases h : q = p
    · subst h; simp [setFile, getFile]
    · simp [setFile, getFile, h, ih]

theorem getFile_setFile_ne (fs : FS) {p q : String} (c : String) (h : q ≠ p) :
    getFile (setFile fs p c) q = getFile fs q := by
  induction fs with
  | nil => simp [setFile, getFile, Ne.symm h]
  | cons e rest ih =>
    obtain ⟨r, v⟩ := e
    by_cases hr : r = p
    · subst hr
      simp [setFile, getFile, Ne.symm h]
    · simp [setFile, getFile, hr, ih]

theorem getFile_setFile_isSome (fs : FS) (p q c : String)
    (h : (getFile fs q).isSome = true) :
    (getFile (setFile fs p c) q).isSome = true := by
  by_cases hpq : q = p
  · subst hpq; simp [getFile_setFile_self]
  · rw [getFile_setFile_ne fs c hpq]; exact h

theorem writeFileIfNotExists_isSome_self (fs : FS) (p c : String) :
    (getFile (writeFileIfNotExists fs p c).1 p).isSome = true := by
  unfold writeFileIfNotExists
  by_cases h : (getFile fs p).isSome
  · simp [h]
  · simp [h, getFile_setFile_self]

theorem writeFileIfNotExists_getFile_ne (fs : FS) {p q : String} (c : String) (h : q ≠ p) :
    getFile (writeFileIfNotExists fs p c).1 q = getFile fs q := by
  unfold writeFileIfNotExists
  by_cases hs : (getFile fs p).isSome
  · simp [hs]
  · simp [hs, getFile_setFile_ne fs c h]

theorem writeFileIfNotExists_isSome_mono (fs : FS) (p q c : String)
    (h : (getFile fs q).isSome = true) :
    (getFile (writeFileIfNotExists fs p c).1 q).isSome = true := by
  unfold writeFileIfNotExists
  by_cases hs : (getFile fs p).isSome
  · simp only [hs, if_true]; exact h
  · simp only [hs, Bool.false_eq_true, if_false]
    exact getFile_setFile_isSome fs p q c h

theorem writeFileIfNotExists_getFile_some (fs : FS) {p q v : String} (c : String)
    (h : getFile fs q = some v) :
    getFile (writeFileIfNotExists fs p c).1 q = some v := by
  by_cases hpq : q = p
  · subst hpq
    unfold writeFileIfNotExists
    simp [h]
  · rw [writeFileIfNotExists_getFile_ne fs c hpq]; exact h

theorem writeFileIfNotExists_skip (fs : FS) (p c : String)
    (h : (getFile fs p).isSome = true) :
    writeFileIfNotExists fs p c = (fs, false) := by
  unfold writeFileIfNotExists
  simp [h]

theorem writeFileIfNotExists_write (fs : FS) (p c : String)
    (h : getFile fs p = none) :
    writeFileIfNotExists fs p c = (setFile fs p c, true) := by
  unfold writeFileIfNotExists
  simp [h]

/-! ## Behaviour of the individual generator steps -/

theorem createOrUpdateApiClientFile_create (fs : FS) (d a u P m : String)
    (h : getFile fs (apiClientPath a) = none) :
    createOrUpdateApiClientFile fs d a u P m =
      (setFile fs (apiClientPath a) (apiClientNewContent d a u P m), true) := by
  unfold createOrUpdateApiClientFile
  rw [h]

theorem createOrUpdateApiClientFile_dup (fs : FS) (d a u P m content : String)
    (h : getFile fs (apiClientPath a) = some content)
    (hc : jsIncludes content ("async " ++ inlineCamel u) = true) :
    createOrUpdateApiClientFile fs d a u P m = (fs, false) := by
  unfold createOrUpdateApiClientFile
  rw [h]
  simp [hc]

theorem createOrUpdateApiClientFile_getFile_ne (fs : FS) (d a u P m : String) {q : String}
    (h : q ≠ apiClientPath a) :
    getFile (createOrUpdateApiClientFile fs d a u P m).1 q = getFile fs q := by
  unfold createOrUpdateApiClientFile
  cases hg : getFile fs (apiClientPath a) with
  | none => simp [getFile_setFile_ne fs _ h]
  | some content =>
    by_cases hm : jsIncludes content ("async " ++ inlineCamel u)
    · simp [hm]
    · simp [hm, getFile_setFile_ne fs _ h]

theorem createOrUpdateApiClientFile_isSome_mono (fs : FS) (d a u P m : String) {q : String}
    (h : (getFile fs q).isSome = true) :
    (getFile (createOrUpdateApiClientFile fs d a u P m).1 q).isSome = true := by
  unfold createOrUpdateApiClientFile
  cases hg : getFile fs (apiClientPath a) with
  | none => simp [getFile_setFile_isSome _ _ _ _ h]
  | some content =>
    by_cases hm : jsIncludes content ("async " ++ inlineCamel u)
    · simp [hm, h]
    · simp [hm, getFile_setFile_isSome _ _ _ _ h]

theorem registerUsecaseInDI_create (fs : FS) (u sym : String)
    (h : getFile fs symbolsPath = none) :
    registerUsecaseInDI fs u sym = (setFile fs symbolsPath (symbolsNewContent sym), true) := by
  unfold registerUsecaseInDI
  rw [h, writeFileIfNotExists_write fs _ _ h]

theorem registerUsecaseInDI_dup (fs : FS) (u sym content : String)
    (h : getFile fs symbolsPath = some content)
    (hc : jsIncludes content (sym ++ ":") = true) :
    registerUsecaseInDI fs u sym = (fs, false) := by
  unfold registerUsecaseInDI
  rw [h]
  simp [hc]

theorem registerUsecaseInDI_getFile_ne (fs : FS) (u sym : String) {q : String}
    (h : q ≠ symbolsPath) :
    getFile (registerUsecaseInDI fs u sym).1 q = getFile fs q := by
  unfold registerUsecaseInDI
  cases hg : getFile fs symbolsPath with
  | none =>
    rw [writeFileIfNotExists_write fs _ _ hg]
    simp [getFile_setFile_ne fs _ h]
  | some content =>
    by_cases h1 : jsIncludes content (sym ++ ":")
    · simp [h1]
    · by_cases h2 : jsIncludes content ("export const USE_CASES = \x7b")
      · simp [h1, h2, getFile_setFile_ne fs _ h]
      · simp [h1, h2]

theorem registerUsecaseInDI_isSome_mono (fs : FS) (u sym : String) {q : String}
    (h : (getFile fs q).isSome = true) :
    (getFile (registerUsecaseInDI fs u sym).1 q).isSome = true := by
  unfold registerUsecaseInDI
  cases hg : getFile fs symbolsPath with
  | none =>
    rw [writeFileIfNotExists_write fs _ _ hg]
    simp [getFile_setFile_isSome _ _ _ _ h]
  | some content =>
    by_cases h1 : jsIncludes content (sym ++ ":")
    · simp [h1, h]
    · by_cases h2 : jsIncludes content ("export const USE_CASES = \x7b")
      · simp [h1, h2, getFile_setFile_isSome _ _ _ _ h]
      · simp [h1, h2, h]

theorem registerUsecaseInContainer_create (fs : FS) (u P sym : String)
    (h : getFile fs containerPath = none) :
    registerUsecaseInContainer fs u P sym =
      (setFile fs containerPath (containerNewContent u P sym), true) := by
  unfold registerUsecaseInContainer
  rw [h, writeFileIfNotExists_write fs _ _ h]

theorem registerUsecaseInContainer_dup (fs : FS) (u P sym content : String)
    (h : getFile fs containerPath = some content)
    (hc : jsIncludes content (P ++ "Usecase") = true) :
    registerUsecaseInContainer fs u P sym = (fs, false) := by
  unfold registerUsecaseInContainer
  rw [h]
  simp [hc]

theorem registerUsecaseInContainer_getFile_ne (fs : FS) (u P sym : String) {q : String}
    (h : q ≠ containerPath) :
    getFile (registerUsecaseInContainer fs u P sym).1 q = getFile fs q := by
  unfold registerUsecaseInContainer
  cases hg : getFile fs containerPath with
  | none =>
    rw [writeFileIfNotExists_write fs _ _ hg]
    simp [getFile_setFile_ne fs _ h]
  | some content =>
    by_cases h1 : jsIncludes content (P ++ "Usecase")
    · simp [h1]
    · simp [h1, getFile_setFile_ne fs _ h]

theorem registerUsecaseInContainer_isSome_mono (fs : FS) (u P sym : String) {q : String}
    (h : (getFile fs q).isSome = true) :
    (getFile (registerUsecaseInContainer fs u P sym).1 q).isSome = true := by
  unfold registerUsecaseInContainer
  cases hg : getFile fs containerPath with
  | none =>
    rw [writeFileIfNotExists_write fs _ _ hg]
    simp [getFile_setFile_isSome _ _ _ _ h]
  | some content =>
    by_cases h1 : jsIncludes content (P ++ "Usecase")
    · simp [h1, h]
    · simp [h1, getFile_setFile_isSome _ _ _ _ h]

/-! ## Containment facts about the generated template contents -/

theorem symbolsNewContent_includes (sym : String) :
    jsIncludes (symbolsNewContent sym) (sym ++ ":") = true := by
  have hsplit : (": Symbol(\x27" : String).data =
      (":" : String).data ++ (" Symbol(\x27" : String).data := by decide
  unfold jsIncludes symbolsNewContent
  simp only [String.data_append, hsplit, List.append_assoc]
  exact containsChars_append_left _ _ _ (containsChars_prefix_chunks _ _ _)

theorem containerNewContent_includes (u P sym : String) :
    jsIncludes (containerNewContent u P sym) (P ++ "Usecase") = true := by
  have hsplit : ("Usecase \x7d from \x27@/application/use-cases/" : String).data =
      ("Usecase" : String).data ++ (" \x7d from \x27@/application/use-cases/" : String).data := by
    decide
  unfold jsIncludes containerNewContent
  simp only [String.data_append, hsplit, List.append_assoc]
  exact containsChars_append_left _ _ _ (containsChars_prefix_chunks _ _ _)

theorem apiClientNewContent_includes (d a u P m : String) :
    jsIncludes (apiClientNewContent d a u P m) ("async " ++ inlineCamel u) = true := by
  unfold jsIncludes apiClientNewContent
  rw [show ("Api \x7b\n  constructor(@inject(BASE.API_CLIENT) private readonly apiClient: ApiClient) \x7b\x7d\n\n  async " : String) =
      ("Api \x7b\n  constructor(@inject(BASE.API_CLIENT) private readonly apiClient: ApiClient) \x7b\x7d\n\n  " : String) ++
        ("async " : String) from by decide]
  simp only [String.data_append, List.append_assoc]
  exact containsChars_append_left _ _ _ (containsChars_append_left _ _ _
    (containsChars_append_left _ _ _ (containsChars_append_left _ _ _
      (containsChars_append_left _ _ _ (containsChars_append_left _ _ _
        (containsChars_append_left _ _ _ (containsChars_append_left _ _ _
          (containsChars_append_left _ _ _ (containsChars_append_left _ _ _
            (containsChars_append_left _ _ _
              (containsChars_prefix_chunks _ _ _)))))))))))

/-! ## First-run and second-run behaviour of `generateUsecase` -/

/-- After a run of `generateUsecase` on a project with no API client file
and no registry files, the four per-use-case files exist, the base
interface exists, and the API client, symbols and container files hold
exactly the freshly generated template contents. -/
theorem generateUsecase_fresh_facts (fs : FS) (d u a : String) (m : Option String)
    (hapi0 : getFile fs (apiClientPath a) = none)
    (hsym0 : getFile fs symbolsPath = none)
    (hcon0 : getFile fs containerPath = none) :
    (getFile (generateUsecase fs d u a m).1 baseUsecasePath).isSome = true ∧
    (getFile (generateUsecase fs d u a m).1 (interfacePath d u)).isSome = true ∧
    (getFile (generateUsecase fs d u a m).1 (implementationPath u)).isSome = true ∧
    (getFile (generateUsecase fs d u a m).1 (actionPath (convertKebabToCamel u))).isSome = true ∧
    getFile (generateUsecase fs d u a m).1 (apiClientPath a) =
      some (apiClientNewContent d a u (convertKebabToPascal u) (m.getD ("GET"))) ∧
    getFile (generateUsecase fs d u a m).1 symbolsPath =
      some (symbolsNewContent (jsUpperUnderscore u)) ∧
    getFile (generateUsecase fs d u a m).1 containerPath =
      some (containerNewContent u (convertKebabToPascal u) (jsUpperUnderscore u)) := by
  dsimp only [generateUsecase, createUsecaseInterfaceFile, createUsecaseImplementationFile,
    createActionFile]
  set fsB := (if (getFile fs baseUsecasePath).isSome = true then fs
    else setFile fs baseUsecasePath baseUsecaseContent) with hfsB
  have hBbase : (getFile fsB baseUsecasePath).isSome = true := by
    rw [hfsB]
    by_cases hb : (getFile fs baseUsecasePath).isSome = true
    · simp [hb]
    · simp [hb, getFile_setFile_self]
  have hBapi : getFile fsB (apiClientPath a) = none := by
    rw [hfsB]
    by_cases hb : (getFile fs baseUsecasePath).isSome = true
    · simp [hb, hapi0]
    · simp [hb, getFile_setFile_ne fs _ (apiClientPath_ne_base a), hapi0]
  have hBsym : getFile fsB symbolsPath = none := by
    rw [hfsB]
    by_cases hb : (getFile fs baseUsecasePath).isSome = true
    · simp [hb, hsym0]
    · simp [hb, getFile_setFile_ne fs _ symbolsPath_ne_base, hsym0]
  have hBcon : getFile fsB containerPath = none := by
    rw [hfsB]
    by_cases hb : (getFile fs baseUsecasePath).isSome = true
    · simp [hb, hcon0]
    · simp [hb, getFile_setFile_ne fs _ containerPath_ne_base, hcon0]
  set ri := writeFileIfNotExists fsB (interfacePath d u)
    (interfaceContent (convertKebabToPascal u)) with hri
  have hIint : (getFile ri.1 (interfacePath d u)).isSome = true := by
    rw [hri]; exact writeFileIfNotExists_isSome_self _ _ _
  have hIbase : (getFile ri.1 baseUsecasePath).isSome = true := by
    rw [hri]; exact writeFileIfNotExists_isSome_mono _ _ _ _ hBbase
  have hIapi : getFile ri.1 (apiClientPath a) = none := by
    rw [hri, writeFileIfNotExists_getFile_ne _ _ (apiClientPath_ne_interface a d u)]
    exact hBapi
  have hIsym : getFile ri.1 symbolsPath = none := by
    rw [hri, writeFileIfNotExists_getFile_ne _ _ (symbolsPath_ne_interface d u)]
    exact hBsym
  have hIcon : getFile ri.1 containerPath = none := by
    rw [hri, writeFileIfNotExists_getFile_ne _ _ (containerPath_ne_interface d u)]
    exact hBcon
  set rm := writeFileIfNotExists ri.1 (implementationPath u)
    (implementationContent d u (convertKebabToPascal u) (convertKebabToPascal a)
      (jsUpperUnderscore a)) with hrm
  have hMimpl : (getFile rm.1 (implementationPath u)).isSome = true := by
    rw [hrm]; exact writeFileIfNotExists_isSome_self _ _ _
  have hMbase : (getFile rm.1 baseUsecasePath).isSome = true := by
    rw [hrm]; exact writeFileIfNotExists_isSome_mono _ _ _ _ hIbase
  have hMint : (getFile rm.1 (interfacePath d u)).isSome = true := by
    rw [hrm]; exact writeFileIfNotExists_isSome_mono _ _ _ _ hIint
  have hMapi : getFile rm.1 (apiClientPath a) = none := by
    rw [hrm, writeFileIfNotExists_getFile_ne _ _ (apiClientPath_ne_implementation a u)]
    exact hIapi
  have hMsym : getFile rm.1 symbolsPath = none := by
    rw [hrm, writeFileIfNotExists_getFile_ne _ _ (symbolsPath_ne_implementation u)]
    exact hIsym
  have hMcon : getFile rm.1 containerPath = none := by
    rw [hrm, writeFileIfNotExists_getFile_ne _ _ (containerPath_ne_implementation u)]
    exact hIcon
  set ra := createOrUpdateApiClientFile rm.1 d a u (convertKebabToPascal u) (m.getD ("GET"))
    with hra
  have hra_eq : ra = (setFile rm.1 (apiClientPath a)
      (apiClientNewContent d a u (convertKebabToPascal u) (m.getD ("GET"))), true) := by
    rw [hra]; exact createOrUpdateApiClientFile_create _ _ _ _ _ _ hMapi
  have hAapi : getFile ra.1 (apiClientPath a) =
      some (apiClientNewContent d a u (convertKebabToPascal u) (m.getD ("GET"))) := by
    rw [hra_eq]; exact getFile_setFile_self _ _ _
  have hAbase : (getFile ra.1 baseUsecasePath).isSome = true := by
    rw [hra_eq]; exact getFile_setFile_isSome _ _ _ _ hMbase
  have hAint : (getFile ra.1 (interfacePath d u)).isSome = true := by
    rw [hra_eq]; exact getFile_setFile_isSome _ _ _ _ hMint
  have hAimpl : (getFile ra.1 (implementationPath u)).isSome = true := by
    rw [hra_eq]; exact getFile_setFile_isSome _ _ _ _ hMimpl
  have hAsym : getFile ra.1 symbolsPath = none := by
    rw [hra_eq]
    show getFile (setFile rm.1 (apiClientPath a) _) symbolsPath = none
    rw [getFile_setFile_ne rm.1 _ (Ne.symm (apiClientPath_ne_symbols a))]
    exact hMsym
  have hAcon : getFile ra.1 containerPath = none := by
    rw [hra_eq]
    show getFile (setFile rm.1 (apiClientPath a) _) containerPath = none
    rw [getFile_setFile_ne rm.1 _ (Ne.symm (apiClientPath_ne_container a))]
    exact hMcon
  set rt := writeFileIfNotExists ra.1 (actionPath (convertKebabToCamel u))
    (actionContent (convertKebabToCamel u) (convertKebabToPascal u) (jsUpperUnderscore u) d u)
    with hrt
  have hTact : (getFile rt.1 (actionPath (convertKebabToCamel u))).isSome = true := by
    rw [hrt]; exact writeFileIfNotExists_isSome_self _ _ _
  have hTbase : (getFile rt.1 baseUsecasePath).isSome = true := by
    rw [hrt]; exact writeFileIfNotExists_isSome_mono _ _ _ _ hAbase
  have hTint : (getFile rt.1 (interfacePath d u)).isSome = true := by
    rw [hrt]; exact writeFileIfNotExists_isSome_mono _ _ _ _ hAint
  have hTimpl : (getFile rt.1 (implementationPath u)).isSome = true := by
    rw [hrt]; exact writeFileIfNotExists_isSome_mono _ _ _ _ hAimpl
  have hTapi : getFile rt.1 (apiClientPath a) =
      some (apiClientNewContent d a u (convertKebabToPascal u) (m.getD ("GET"))) := by
    rw [hrt]; exact writeFileIfNotExists_getFile_some _ _ hAapi
  have hTsym : getFile rt.1 symbolsPath = none := by
    rw [hrt, writeFileIfNotExists_getFile_ne _ _ (symbolsPath_ne_action _)]
    exact hAsym
  have hTcon : getFile rt.1 containerPath = none := by
    rw [hrt, writeFileIfNotExists_getFile_ne _ _ (containerPath_ne_action _)]
    exact hAcon
  set rs := registerUsecaseInDI rt.1 u (jsUpperUnderscore u) with hrs
  have hrs_eq : rs = (setFile rt.1 symbolsPath (symbolsNewContent (jsUpperUnderscore u)), true) := by
    rw [hrs]; exact registerUsecaseInDI_create _ _ _ hTsym
  have hSsym : getFile rs.1 symbolsPath = some (symbolsNewContent (jsUpperUnderscore u)) := by
    rw [hrs_eq]; exact getFile_setFile_self _ _ _
  have hSbase : (getFile rs.1 baseUsecasePath).isSome = true := by
    rw [hrs_eq]; exact getFile_setFile_isSome _ _ _ _ hTbase
  have hSint : (getFile rs.1 (interfacePath d u)).isSome = true := by
    rw [hrs_eq]; exact getFile_setFile_isSome _ _ _ _ hTint
  have hSimpl : (getFile rs.1 (implementationPath u)).isSome = true := by
    rw [hrs_eq]; exact getFile_setFile_isSome _ _ _ _ hTimpl
  have hSact : (getFile rs.1 (actionPath (convertKebabToCamel u))).isSome = true := by
    rw [hrs_eq]; exact getFile_setFile_isSome _ _ _ _ hTact
  have hSapi : getFile rs.1 (apiClientPath a) =
      some (apiClientNewContent d a u (convertKebabToPascal u) (m.getD ("GET"))) := by
    rw [hrs_eq]
    show getFile (setFile rt.1 symbolsPath _) (apiClientPath a) = _
    rw [getFile_setFile_ne rt.1 _ (apiClientPath_ne_symbols a)]
    exact hTapi
  have hScon : getFile rs.1 containerPath = none := by
    rw [hrs_eq]
    show getFile (setFile rt.1 symbolsPath _) containerPath = none
    rw [getFile_setFile_ne rt.1 _ (Ne.symm symbolsPath_ne_container)]
    exact hTcon
  set rc := registerUsecaseInContainer rs.1 u (convertKebabToPascal u) (jsUpperUnderscore u)
    with hrc
  have hrc_eq : rc = (setFile rs.1 containerPath
      (containerNewContent u (convertKebabToPascal u) (jsUpperUnderscore u)), true) := by
    rw [hrc]; exact registerUsecaseInContainer_create _ _ _ _ hScon
  refine ⟨?_, ?_, ?_, ?_, ?_, ?_, ?_⟩
  · rw [hrc_eq]; exact getFile_setFile_isSome _ _ _ _ hSbase
  · rw [hrc_eq]; exact getFile_setFile_isSome _ _ _ _ hSint
  · rw [hrc_eq]; exact getFile_setFile_isSome _ _ _ _ hSimpl
  · rw [hrc_eq]; exact getFile_setFile_isSome _ _ _ _ hSact
  · rw [hrc_eq]
    show getFile (setFile rs.1 containerPath _) (apiClientPath a) = _
    rw [getFile_setFile_ne rs.1 _ (apiClientPath_ne_container a)]
    exact hSapi
  · rw [hrc_eq]
    show getFile (setFile rs.1 containerPath _) symbolsPath = _
    rw [getFile_setFile_ne rs.1 _ symbolsPath_ne_container]
    exact hSsym
  · rw [hrc_eq]; exact getFile_setFile_self _ _ _

/-- On any project state that already holds the four generated files, the
base interface, and the three template-generated API/registry contents,
`generateUsecase` is a complete no-op: every action reports `false` and
the filesystem is returned unchanged. -/
theorem generateUsecase_all_skip (fs : FS) (d u a : String) (m : Option String)
    (hbase : (getFile fs baseUsecasePath).isSome = true)
    (hint : (getFile fs (interfacePath d u)).isSome = true)
    (himpl : (getFile fs (implementationPath u)).isSome = true)
    (hact : (getFile fs (actionPath (convertKebabToCamel u))).isSome = true)
    (happ : getFile fs (apiClientPath a) =
      some (apiClientNewContent d a u (convertKebabToPascal u) (m.getD ("GET"))))
    (hsym : getFile fs symbolsPath = some (symbolsNewContent (jsUpperUnderscore u)))
    (hcon : getFile fs containerPath =
      some (containerNewContent u (convertKebabToPascal u) (jsUpperUnderscore u))) :
    generateUsecase fs d u a m = (fs, ⟨false, false, false, false, false, false⟩) := by
  have happ' := createOrUpdateApiClientFile_dup fs d a u (convertKebabToPascal u) (m.getD ("GET"))
    _ happ (apiClientNewContent_includes d a u (convertKebabToPascal u) (m.getD ("GET")))
  have hsym' := registerUsecaseInDI_dup fs u (jsUpperUnderscore u) _ hsym
    (symbolsNewContent_includes (jsUpperUnderscore u))
  have hcon' := registerUsecaseInContainer_dup fs u (convertKebabToPascal u)
    (jsUpperUnderscore u) _ hcon
    (containerNewContent_includes u (convertKebabToPascal u) (jsUpperUnderscore u))
  have hfsB : (if (getFile fs baseUsecasePath).isSome = true then fs
      else setFile fs baseUsecasePath baseUsecaseContent) = fs := by simp [hbase]
  dsimp only [generateUsecase, createUsecaseInterfaceFile, createUsecaseImplementationFile,
    createActionFile]
  rw [hfsB, writeFileIfNotExists_skip _ _ _ hint]
  rw [writeFileIfNotExists_skip _ _ _ himpl]
  rw [happ']
  rw [writeFileIfNotExists_skip _ _ _ hact]
  rw [hsym', hcon']

/-- Claim C1: running the full generate operation a second time with the
same inputs, on the state produced by a first run that created the API
client file and both registries, performs no write: all four file actions
and both registry updates return `false` and the resulting filesystem is
identical to the state after the first run. -/
theorem generateUsecase_second_run_noop (fs : FS) (domain usecaseName apiName : String)
    (httpMethod : Option String)
    (hapi : getFile fs (apiClientPath apiName) = none)
    (hsym : getFile fs symbolsPath = none)
    (hcon : getFile fs containerPath = none) :
    generateUsecase (generateUsecase fs domain usecaseName apiName httpMethod).1
        domain usecaseName apiName httpMethod =
      ((generateUsecase fs domain usecaseName apiName httpMethod).1,
        ⟨false, false, false, false, false, false⟩) := by
  obtain ⟨h1, h2, h3, h4, h5, h6, h7⟩ :=
    generateUsecase_fresh_facts fs domain usecaseName apiName httpMethod hapi hsym hcon
  exact generateUsecase_all_skip _ _ _ _ _ h1 h2 h3 h4 h5 h6 h7

/-- Witness for C1: the concrete scenario-B instance, starting from the
empty project. -/
theorem generateUsecase_second_run_noop_witness :
    generateUsecase (generateUsecase [] "products" "get-product" "products" (some ("GET"))).1
        ("products") "get-product" "products" (some ("GET")) =
      ((generateUsecase [] "products" "get-product" "products" (some ("GET"))).1,
        ⟨false, false, false, false, false, false⟩) :=
  generateUsecase_second_run_noop [] "products" "get-product" "products" (some ("GET"))
    rfl rfl rfl

/-- Claim C9: in a project lacking `src/domains/_base/base.usecase.ts`,
every `generateUsecase` invocation writes that file (with the base
use-case interface template) in addition to the files the spec lists. -/
theorem generateUsecase_writes_base (fs : FS) (d u a : String) (m : Option String)
    (hb : getFile fs baseUsecasePath = none) :
    getFile (generateUsecase fs d u a m).1 baseUsecasePath = some baseUsecaseContent := by
  dsimp only [generateUsecase, createUsecaseInterfaceFile, createUsecaseImplementationFile,
    createActionFile]
  set fsB := (if (getFile fs baseUsecasePath).isSome = true then fs
    else setFile fs baseUsecasePath baseUsecaseContent) with hfsB
  have h0 : getFile fsB baseUsecasePath = some baseUsecaseContent := by
    rw [hfsB]
    simp [hb, getFile_setFile_self]
  have h1 := writeFileIfNotExists_getFile_some fsB
    (c := interfaceContent (convertKebabToPascal u)) (p := interfacePath d u) h0
  have h2 := writeFileIfNotExists_getFile_some _
    (c := implementationContent d u (convertKebabToPascal u) (convertKebabToPascal a)
      (jsUpperUnderscore a)) (p := implementationPath u) h1
  rw [registerUsecaseInContainer_getFile_ne _ _ _ _ (Ne.symm containerPath_ne_base)]
  rw [registerUsecaseInDI_getFile_ne _ _ _ (Ne.symm symbolsPath_ne_base)]
  rw [writeFileIfNotExists_getFile_ne _ _ (baseUsecasePath_ne_action _)]
  rw [createOrUpdateApiClientFile_getFile_ne _ _ _ _ _ _ (Ne.symm (apiClientPath_ne_base a))]
  exact h2

/-- Witness for C9: the empty project. -/
theorem generateUsecase_writes_base_witness :
    getFile (generateUsecase [] "products" "get-product" "products" (some ("GET"))).1
        baseUsecasePath = some baseUsecaseContent :=
  generateUsecase_writes_base [] "products" "get-product" "products" (some ("GET")) rfl

/-- Claim C3: duplicate detection for registry entries is substring
containment over the whole file text.  Whenever `sym + ":"` occurs
anywhere in the symbols file (regardless of which entry group it sits in),
`registerUsecaseInDI` returns `false` and leaves the filesystem unchanged,
so the `USE_CASES` group never receives the new entry; likewise
`registerUsecaseInContainer` is a no-op whenever `pascal + "Usecase"`
occurs anywhere in the container file. -/
theorem registry_dup_check_is_substring_based :
    (∀ (fs : FS) (u sym content : String),
        getFile fs symbolsPath = some content →
        jsIncludes content (sym ++ ":") = true →
        registerUsecaseInDI fs u sym = (fs, false)) ∧
    (∀ (fs : FS) (u pascal sym content : String),
        getFile fs containerPath = some content →
        jsIncludes content (pascal ++ "Usecase") = true →
        registerUsecaseInContainer fs u pascal sym = (fs, false)) :=
  ⟨fun fs u sym content h hc => registerUsecaseInDI_dup fs u sym content h hc,
   fun fs u pascal sym content h hc => registerUsecaseInContainer_dup fs u pascal sym content h hc⟩

/-- Witness for C3: a symbols file whose only occurrence of `FOO_SYM:` is
inside the `REPOSITORIES` group, and a container file whose only
occurrence of `XyzUsecase` is inside a comment; both duplicate checks
still fire. -/
theorem registry_dup_check_is_substring_based_witness :
    jsIncludes ("export const USE_CASES = \x7b\n\x7d\n\nexport const REPOSITORIES = \x7b\n  FOO_SYM: Symbol(\x27FOO_SYM\x27),\n\x7d\n") "FOO_SYM:" = true ∧
    jsIncludes ("// XyzUsecase is referenced only in this comment\nexport \x7b container \x7d;\n") "XyzUsecase" = true ∧
    registerUsecaseInDI
        [(symbolsPath, "export const USE_CASES = \x7b\n\x7d\n\nexport const REPOSITORIES = \x7b\n  FOO_SYM: Symbol(\x27FOO_SYM\x27),\n\x7d\n")]
        "foo-sym" "FOO_SYM" =
      ([(symbolsPath, "export const USE_CASES = \x7b\n\x7d\n\nexport const REPOSITORIES = \x7b\n  FOO_SYM: Symbol(\x27FOO_SYM\x27),\n\x7d\n")], false) ∧
    registerUsecaseInContainer
        [(containerPath, "// XyzUsecase is referenced only in this comment\nexport \x7b container \x7d;\n")]
        "xyz" "Xyz" "XYZ" =
      ([(containerPath, "// XyzUsecase is referenced only in this comment\nexport \x7b container \x7d;\n")], false) :=
  ⟨by decide, by decide,
   registry_dup_check_is_substring_based.1 _ ("foo-sym") "FOO_SYM" _ rfl (by decide),
   registry_dup_check_is_substring_based.2 _ ("xyz") "Xyz" "XYZ" _ rfl (by decide)⟩

/-- Claim C5: a CLI invocation (argument mode, no help flag) whose domain,
use-case name or API name fails the kebab-case check, or whose method
fails the case-insensitive HTTP-method check (or is missing), is rejected
before any generation: the filesystem is unchanged and the exit code is 1. -/
theorem cliArgsMode_rejects_invalid (fs : FS) (args : List String)
    (hh1 : args.contains ("--help") = false) (hh2 : args.contains ("-h") = false)
    (hbad : optionArgValid validateKebabCase (parseCliOptions args).domain = false ∨
      optionArgValid validateKebabCase (parseCliOptions args).usecaseName = false ∨
      optionArgValid validateKebabCase (parseCliOptions args).apiName = false ∨
      optionArgValid validateHttpMethod (parseCliOptions args).httpMethod = false) :
    cliArgsMode fs args = (fs, 1) := by
  unfold cliArgsMode
  rw [hh1, hh2]
  rcases hbad with h | h | h | h <;> simp [h]

/-- Witness for C5: scenario D, an invocation with `--method PURGE`. -/
theorem cliArgsMode_rejects_invalid_witness :
    (parseCliOptions ["--domain", "products", "--usecase", "get-product", "--api", "products",
        "--method", "PURGE"]).httpMethod = some ("PURGE") ∧
    cliArgsMode []
        ["--domain", "products", "--usecase", "get-product", "--api", "products",
          "--method", "PURGE"] =
      ([], 1) :=
  ⟨by decide,
   cliArgsMode_rejects_invalid []
     ["--domain", "products", "--usecase", "get-product", "--api", "products",
       "--method", "PURGE"]
     (by decide) (by decide) (Or.inr (Or.inr (Or.inr (by decide))))⟩

/-- Counterexample for C6: omitting `--method` while supplying the other
three parameters does not default to GET in the CLI; the flagless lookup
`args[args.indexOf('--method') + 1]` yields `args[0] = "--domain"`, the
method check fails, and the invocation is rejected with exit code 1 and
no filesystem effect — generation does not proceed. -/
theorem cli_omitted_method_rejected :
    (parseCliOptions ["--domain", "products", "--usecase", "get-product", "--api", "products"]).httpMethod
        = some ("--domain") ∧
    cliArgsMode [] ["--domain", "products", "--usecase", "get-product", "--api", "products"] =
      ([], 1) := by
  decide

/-- Amended C6: the GET default applies only to the `generateUsecase`
library function, whose `httpMethod` option defaults to `"GET"` when
omitted; the CLI itself rejects an invocation that omits `--method`. -/
theorem generateUsecase_default_method_GET :
    (∀ (fs : FS) (d u a : String),
        generateUsecase fs d u a none = generateUsecase fs d u a (some ("GET"))) ∧
    cliArgsMode [] ["--domain", "products", "--usecase", "get-product", "--api", "products"] =
      ([], 1) :=
  ⟨fun _ _ _ _ => rfl, by decide⟩

set_option maxRecDepth 16384 in
/-- Counterexample for C2: after scenario A on the empty project, the
symbols registry contains no API entry named `PRODUCTS` (the string
`PRODUCTS:` does not occur) and no entry named `GET_PRODUCT_USE_CASE`
(that string does not occur either — the use-case symbol is
`GET_PRODUCT`). -/
theorem scenario_A_symbols_counterexample :
    jsIncludes
        ((getFile (generateUsecase [] "products" "get-product" "products" (some ("GET"))).1
          symbolsPath).getD (""))
        "PRODUCTS:" = false ∧
    jsIncludes
        ((getFile (generateUsecase [] "products" "get-product" "products" (some ("GET"))).1
          symbolsPath).getD (""))
        "GET_PRODUCT_USE_CASE" = false := by
  decide

set_option maxRecDepth 16384 in
/-- Amended C2: scenario A on the empty project creates exactly the four
per-use-case files, the base interface, and the two registries created
from scratch; the symbols registry holds exactly one use-case entry,
named `GET_PRODUCT`, and its API group holds no entry. -/
theorem generateUsecase_scenario_A :
    generateUsecase [] "products" "get-product" "products" (some ("GET")) =
      ([(baseUsecasePath, baseUsecaseContent),
        (interfacePath ("products") "get-product", interfaceContent ("GetProduct")),
        (implementationPath ("get-product"),
          implementationContent ("products") "get-product" "GetProduct" "Products" "PRODUCTS"),
        (apiClientPath ("products"),
          apiClientNewContent ("products") "products" "get-product" "GetProduct" "GET"),
        (actionPath ("getProduct"),
          actionContent ("getProduct") "GetProduct" "GET_PRODUCT" "products" "get-product"),
        (symbolsPath, symbolsNewContent ("GET_PRODUCT")),
        (containerPath, containerNewContent ("get-product") "GetProduct" "GET_PRODUCT")],
       ⟨true, true, true, true, true, true⟩) ∧
    symbolEntryCount
        (entryGroupRegion (symbolsNewContent ("GET_PRODUCT")) "export const USE_CASES = \x7b") = 1 ∧
    jsIncludes
        (entryGroupRegion (symbolsNewContent ("GET_PRODUCT")) "export const USE_CASES = \x7b")
        "GET_PRODUCT:" = true ∧
    symbolEntryCount
        (entryGroupRegion (symbolsNewContent ("GET_PRODUCT")) "export const API = \x7b") = 0 := by
  refine ⟨?_, by decide, by decide, by decide⟩
  decide

/-! ## Claim C4: the generated API method bodies -/

/-- Claim C4: for every use-case name, the five recognized HTTP methods
render a body that targets `/api/v1/` followed by the use-case name with
hyphens replaced by slashes; the shape per method is the stated one (GET:
optional id, no body; POST: body, no id; PUT/PATCH: required id and body;
DELETE: required id, no body); an unrecognized method renders a
placeholder that unconditionally throws.  The concrete conjuncts pin the
scenario-C shape at `get-product`. -/
theorem generateApiMethodBody_spec (u P : String) (hu : validateKebabCase u = true) :
    (∀ m : String,
        jsUpperStr m = "GET" ∨ jsUpperStr m = "POST" ∨ jsUpperStr m = "PUT" ∨
          jsUpperStr m = "PATCH" ∨ jsUpperStr m = "DELETE" →
        jsIncludes (generateApiMethodBody u P m)
          ("/api/v1/" ++ jsReplaceAllChar '-' '/' u) = true) ∧
    generateApiMethodBody u P ("GET") =
      "return await this.apiClient.fetch<" ++ P ++ "Output>(\x60" ++
        ("/api/v1/" ++ jsReplaceAllChar '-' '/' u) ++
        "$\x7brequest.id ? \x60/$\x7brequest.id\x7d\x60 : \x27\x27\x7d\x60, \x7b\n      method: \x27GET\x27,\n    \x7d);" ∧
    generateApiMethodBody u P ("POST") =
      "return await this.apiClient.fetch<" ++ P ++ "Output>(\x27" ++
        ("/api/v1/" ++ jsReplaceAllChar '-' '/' u) ++
        "\x27, \x7b\n      method: \x27POST\x27,\n      body: JSON.stringify(request),\n    \x7d);" ∧
    generateApiMethodBody u P ("PUT") =
      "return await this.apiClient.fetch<" ++ P ++ "Output>(\x60" ++
        ("/api/v1/" ++ jsReplaceAllChar '-' '/' u) ++
        "/$\x7brequest.id\x7d\x60, \x7b\n      method: \x27PUT\x27,\n      body: JSON.stringify(request),\n    \x7d);" ∧
    generateApiMethodBody u P ("PATCH") =
      "return await this.apiClient.fetch<" ++ P ++ "Output>(\x60" ++
        ("/api/v1/" ++ jsReplaceAllChar '-' '/' u) ++
        "/$\x7brequest.id\x7d\x60, \x7b\n      method: \x27PATCH\x27,\n      body: JSON.stringify(request),\n    \x7d);" ∧
    generateApiMethodBody u P ("DELETE") =
      "return await this.apiClient.fetch<" ++ P ++ "Output>(\x60" ++
        ("/api/v1/" ++ jsReplaceAllChar '-' '/' u) ++
        "/$\x7brequest.id\x7d\x60, \x7b\n      method: \x27DELETE\x27,\n    \x7d);" ∧
    (∀ m' : String, validateHttpMethod m' = false →
        generateApiMethodBody u P m' =
          "// TODO: Implement the API method for " ++ m' ++
            "\nthrow new Error(\x27Not implemented\x27);") ∧
    jsIncludes (generateApiMethodBody ("get-product") "GetProduct" "DELETE")
      "\x60/api/v1/get/product/$\x7brequest.id\x7d\x60" = true ∧
    jsIncludes (generateApiMethodBody ("get-product") "GetProduct" "DELETE") "body:" = false ∧
    jsIncludes (generateApiMethodBody ("get-product") "GetProduct" "GET")
      "$\x7brequest.id ? \x60/$\x7brequest.id\x7d\x60 : \x27\x27\x7d" = true ∧
    jsIncludes (generateApiMethodBody ("get-product") "GetProduct" "GET") "body:" = false ∧
    jsIncludes (generateApiMethodBody ("get-product") "GetProduct" "POST")
      "body: JSON.stringify(request)" = true ∧
    jsIncludes (generateApiMethodBody ("get-product") "GetProduct" "POST")
      "$\x7brequest.id" = false ∧
    jsIncludes (generateApiMethodBody ("get-product") "GetProduct" "PUT")
      "/$\x7brequest.id\x7d\x60" = true ∧
    jsIncludes (generateApiMethodBody ("get-product") "GetProduct" "PUT")
      "body: JSON.stringify(request)" = true ∧
    jsIncludes (generateApiMethodBody ("get-product") "GetProduct" "PATCH")
      "/$\x7brequest.id\x7d\x60" = true ∧
    jsIncludes (generateApiMethodBody ("get-product") "GetProduct" "PATCH")
      "body: JSON.stringify(request)" = true := by
  refine ⟨?_, rfl, rfl, rfl, rfl, rfl, ?_, by decide, by decide, by decide, by decide,
    by decide, by decide, by decide, by decide, by decide, by decide⟩
  · intro m hm
    rcases hm with h | h | h | h | h <;>
      · simp only [generateApiMethodBody, h, jsIncludes, String.data_append, List.append_assoc,
          String.reduceEq, reduceIte, if_true, if_false]
        exact containsChars_append_left _ _ _ (containsChars_append_left _ _ _
          (containsChars_append_left _ _ _ (containsChars_prefix_chunks _ _ _)))
  · intro m' hm'
    have hne : ¬(jsUpperStr m' = "GET") ∧ ¬(jsUpperStr m' = "POST") ∧
        ¬(jsUpperStr m' = "PUT") ∧ ¬(jsUpperStr m' = "PATCH") ∧
        ¬(jsUpperStr m' = "DELETE") := by
      simpa [validateHttpMethod, List.contains, or_assoc] using hm'
    obtain ⟨h1, h2, h3, h4, h5⟩ := hne
    simp [generateApiMethodBody, h1, h2, h3, h4, h5]

/-- Witness for C4: scenario C, `get-product` with `DELETE`. -/
theorem generateApiMethodBody_spec_witness :
    validateKebabCase ("get-product") = true ∧
    jsIncludes (generateApiMethodBody ("get-product") "GetProduct" "DELETE")
      ("/api/v1/" ++ jsReplaceAllChar '-' '/' ("get-product")) = true :=
  ⟨by decide,
   (generateApiMethodBody_spec ("get-product") "GetProduct" (by decide)).1 ("DELETE")
     (Or.inr (Or.inr (Or.inr (Or.inr (by decide)))))⟩

/-! ## Claim C10: updating an existing API client file -/

theorem takeWhile_newline_decomp :
    ∀ l : List Char,
      (l.takeWhile (fun x => x ≠ '\n')).length < l.length →
      l = l.takeWhile (fun x => x ≠ '\n') ++
        '\n' :: l.drop ((l.takeWhile (fun x => x ≠ '\n')).length + 1) := by
  intro l
  induction l with
  | nil => intro h; simp at h
  | cons c cs ih =>
    intro h
    by_cases hc : c = '\n'
    · subst hc
      simp [List.takeWhile]
    · rw [List.takeWhile_cons_of_pos (by simpa using hc)] at h ⊢
      simp only [List.length_cons, Nat.add_lt_add_iff_right] at h
      have hrec := ih h
      simp only [List.length_cons, List.drop_succ_cons, List.cons_append]
      exact congrArg (c :: ·) hrec

theorem findImportLine_decomp (la : Bool) :
    ∀ (l p m r : List Char), findImportLine la l = some (p, m, r) → l = p ++ (m ++ r) := by
  intro l
  induction l with
  | nil => intro p m r h; simp [findImportLine] at h
  | cons c cs ih =>
    intro p m r h
    rw [findImportLine] at h
    split at h
    · rename_i hcond
      simp only [Bool.and_eq_true, decide_eq_true_eq] at hcond
      obtain ⟨⟨⟨_, _⟩, hlen⟩, _⟩ := hcond
      simp only [Option.some.injEq, Prod.mk.injEq] at h
      obtain ⟨hp, hm, hr⟩ := h
      subst hp hm hr
      have hdec := takeWhile_newline_decomp (c :: cs) hlen
      simp only [List.nil_append, List.append_assoc, List.singleton_append]
      exact hdec
    · revert h
      cases hf : findImportLine la cs with
      | none => intro h; simp at h
      | some t =>
        obtain ⟨p', m', r'⟩ := t
        intro h
        simp only [Option.some.injEq, Prod.mk.injEq] at h
        obtain ⟨hp, hm2, hr2⟩ := h
        rw [← hp, ← hm2, ← hr2, List.cons_append]
        exact congrArg (c :: ·) (ih p' m' r' hf)

theorem jsInsertImport_getLast (stmt content : String) (lookahead : Bool)
    (h : content.data.getLast? = some '\n') :
    (jsInsertImport stmt lookahead content).data.getLast? = some '\n' := by
  unfold jsInsertImport
  cases hf : findImportLine lookahead content.data with
  | none => exact h
  | some t =>
    obtain ⟨p, m, r⟩ := t
    have hdec := findImportLine_decomp lookahead content.data p m r hf
    show (p ++ m ++ stmt.data ++ '\n' :: r).getLast? = some '\n'
    cases r with
    | nil =>
      rw [show ('\n' :: ([] : List Char)) = ['\n'] from rfl,
        List.getLast?_append_of_ne_nil _ (by simp)]
      rfl
    | cons x xs =>
      rw [show ('\n' :: x :: xs) = ['\n'] ++ x :: xs from rfl,
        List.getLast?_append_of_ne_nil _ (by simp),
        List.getLast?_append_of_ne_nil _ (by simp)]
      rw [hdec] at h
      rw [List.getLast?_append_of_ne_nil _ (by simp),
        List.getLast?_append_of_ne_nil _ (by simp)] at h
      exact h

/-- Claim C10: when an existing API client file ends in a newline (as
every file this tool generates does) and the requested method is not yet
present, `createOrUpdateApiClientFile` rewrites the file with only
the insertion of the import line — the `/\x7d$/` append never fires, so the new method is
not added — yet it still writes the file and returns `true`. -/
theorem createOrUpdateApiClientFile_trailing_newline
    (fs : FS) (d a u P m content : String)
    (hex : getFile fs (apiClientPath a) = some content)
    (hnl : content.data.getLast? = some '\n')
    (hmeth : jsIncludes content ("async " ++ inlineCamel u) = false) :
    createOrUpdateApiClientFile fs d a u P m =
      (setFile fs (apiClientPath a)
        (if !jsIncludes content (P ++ "Input") then
          jsInsertImport (apiImportStatement d u P) false content
        else content),
       true) := by
  unfold createOrUpdateApiClientFile
  rw [hex]
  simp only [hmeth, Bool.not_false, if_true]
  have hlast : (if !jsIncludes content (P ++ "Input") then
      jsInsertImport (apiImportStatement d u P) false content
    else content).data.getLast? = some '\n' := by
    split
    · exact jsInsertImport_getLast _ _ _ hnl
    · exact hnl
  have hbrace : jsReplaceEndBrace
      ("\n  async " ++ inlineCamel u ++ "(request: " ++ P ++ "Input): Promise<" ++ P ++
        "Output> \x7b\n    " ++ generateApiMethodBody u P m ++ "\n  \x7d\n\x7d")
      (if !jsIncludes content (P ++ "Input") then
        jsInsertImport (apiImportStatement d u P) false content
      else content) =
      (if !jsIncludes content (P ++ "Input") then
        jsInsertImport (apiImportStatement d u P) false content
      else content) := by
    unfold jsReplaceEndBrace
    rw [hlast]
    simp
  rw [hbrace]

set_option maxRecDepth 32768 in
/-- Witness for C10: updating the tool-generated `products` API client
(which holds `listItems` and ends in a newline) with a `get-product`
method: the rewritten file gains the import line but no
`async getProduct` method, and the call reports success. -/
theorem createOrUpdateApiClientFile_trailing_newline_witness :
    (apiClientNewContent ("users") "products" "list-items" "ListItems" "GET").data.getLast?
        = some '\n' ∧
    jsIncludes (apiClientNewContent ("users") "products" "list-items" "ListItems" "GET")
        ("async " ++ inlineCamel ("get-product")) = false ∧
    createOrUpdateApiClientFile
        [(apiClientPath ("products"),
          apiClientNewContent ("users") "products" "list-items" "ListItems" "GET")]
        "products" "products" "get-product" "GetProduct" "GET" =
      ([(apiClientPath ("products"),
          jsInsertImport (apiImportStatement ("products") "get-product" "GetProduct") false
            (apiClientNewContent ("users") "products" "list-items" "ListItems" "GET"))],
       true) ∧
    jsIncludes
        (jsInsertImport (apiImportStatement ("products") "get-product" "GetProduct") false
          (apiClientNewContent ("users") "products" "list-items" "ListItems" "GET"))
        (apiImportStatement ("products") "get-product" "GetProduct") = true ∧
    jsIncludes
        (jsInsertImport (apiImportStatement ("products") "get-product" "GetProduct") false
          (apiClientNewContent ("users") "products" "list-items" "ListItems" "GET"))
        ("async " ++ inlineCamel ("get-product")) = false := by
  refine ⟨by decide, by decide, ?_, by decide, by decide⟩
  have happ := createOrUpdateApiClientFile_trailing_newline
    [(apiClientPath ("products"),
      apiClientNewContent ("users") "products" "list-items" "ListItems" "GET")]
    "products" "products" "get-product" "GetProduct" "GET"
    (apiClientNewContent ("users") "products" "list-items" "ListItems" "GET")
    rfl (by decide) (by decide)
  rw [happ]
  decide

/-! ## Claims C7 and C8: the case-conversion algebra -/

theorem toNat_bounds_of_between {a b c : Char} (h1 : a ≤ c) (h2 : c ≤ b) :
    a.toNat ≤ c.toNat ∧ c.toNat ≤ b.toNat := by
  rw [Char.le_def] at h1 h2
  exact ⟨h1, h2⟩

theorem toLower_fix {c : Char} (h : isLowerAlnumChar c = true) : Char.toLower c = c := by
  simp only [isLowerAlnumChar, isLowerAlphaChar, Bool.or_eq_true, Bool.and_eq_true,
    decide_eq_true_eq] at h
  rcases h with ⟨h1, h2⟩ | ⟨h1, h2⟩
  · obtain ⟨hb1, hb2⟩ := toNat_bounds_of_between h1 h2
    obtain ⟨n, hn1, hn2, rfl⟩ : ∃ n, 97 ≤ n ∧ n ≤ 122 ∧ Char.ofNat n = c :=
      ⟨c.toNat, hb1, hb2, Char.ofNat_toNat c⟩
    interval_cases n <;> decide
  · obtain ⟨hb1, hb2⟩ := toNat_bounds_of_between h1 h2
    obtain ⟨n, hn1, hn2, rfl⟩ : ∃ n, 48 ≤ n ∧ n ≤ 57 ∧ Char.ofNat n = c :=
      ⟨c.toNat, hb1, hb2, Char.ofNat_toNat c⟩
    interval_cases n <;> decide

theorem map_toLower_fix (l : List Char) (h : ∀ x ∈ l, isLowerAlnumChar x = true) :
    l.map Char.toLower = l := by
  have : l.map Char.toLower = l.map id :=
    List.map_congr_left fun x hx => toLower_fix (h x hx)
  rw [this, List.map_id]

theorem capWord_eq_capWordRaw (seg : List Char)
    (h : ∀ x ∈ seg, isLowerAlnumChar x = true) : capWord seg = capWordRaw seg := by
  cases seg with
  | nil => rfl
  | cons c cs =>
    simp only [capWord, capWordRaw, List.cons.injEq, true_and]
    exact map_toLower_fix cs fun x hx => h x (List.mem_cons_of_mem c hx)

theorem validateKebabCase_segments (s : String) (hs : validateKebabCase s = true) :
    ∀ seg ∈ jsSplitDash s.data, ∀ c ∈ seg, isLowerAlnumChar c = true := by
  unfold validateKebabCase at hs
  rcases hseq : jsSplitDash s.data with _ | ⟨seg0, segs⟩
  · rw [hseq] at hs; simp at hs
  · rw [hseq] at hs
    cases seg0 with
    | nil => simp at hs
    | cons c cs =>
      simp only [Bool.and_eq_true, List.all_eq_true] at hs
      obtain ⟨⟨hc, hcs⟩, hsegs⟩ := hs
      intro seg hseg x hx
      rcases List.mem_cons.mp hseg with h | h
      · subst h
        rcases List.mem_cons.mp hx with h' | h'
        · subst h'
          simp only [isLowerAlnumChar, Bool.or_eq_true]
          exact Or.inl hc
        · exact hcs x h'
      · exact (hsegs seg h).2 x hx

/-- Claim C7: on valid kebab-case identifiers the three source conversion
functions agree with the spec's description of the algorithm (split on
hyphen; camelCase lowercases the first segment and capitalizes the later
ones; PascalCase capitalizes every segment; CONST_CASE uppercases the
whole identifier replacing `-` by `_`), and in particular
`toConstCase "get-product" = "GET_PRODUCT"`. -/
theorem caseConversions_match_spec (s : String) (hs : validateKebabCase s = true) :
    toCamelCase s = specCamelCase s ∧
    toPascalCase s = specPascalCase s ∧
    toConstCase s = specConstCase s ∧
    toCamelCase ("get-product") = "getProduct" ∧
    toPascalCase ("get-product") = "GetProduct" ∧
    toConstCase ("get-product") = "GET_PRODUCT" := by
  have hsegs := validateKebabCase_segments s hs
  refine ⟨?_, ?_, rfl, by decide, by decide, by decide⟩
  · unfold toCamelCase specCamelCase
    rcases hseq : jsSplitDash s.data with _ | ⟨seg0, segs⟩
    · rfl
    · rw [hseq] at hsegs
      dsimp only
      have hmap : segs.map capWord = segs.map capWordRaw :=
        List.map_congr_left fun seg hseg =>
          capWord_eq_capWordRaw seg (hsegs seg (List.mem_cons_of_mem seg0 hseg))
      rw [hmap]
  · unfold toPascalCase specPascalCase
    rw [List.map_congr_left fun seg hseg => capWord_eq_capWordRaw seg (hsegs seg hseg)]

/-- Witness for C7 at `get-product`. -/
theorem caseConversions_match_spec_witness :
    toCamelCase ("get-product") = specCamelCase ("get-product") ∧
    toPascalCase ("get-product") = specPascalCase ("get-product") ∧
    toConstCase ("get-product") = specConstCase ("get-product") ∧
    toCamelCase ("get-product") = "getProduct" ∧
    toPascalCase ("get-product") = "GetProduct" ∧
    toConstCase ("get-product") = "GET_PRODUCT" :=
  caseConversions_match_spec ("get-product") (by decide)

theorem jsSplitDash_ne_nil : ∀ l : List Char, jsSplitDash l ≠ [] := by
  intro l
  cases l with
  | nil => simp [jsSplitDash]
  | cons c cs =>
    rw [jsSplitDash]
    split
    · simp
    · split <;> simp

theorem toUpper_ne_dash {c : Char} (h : c ≠ '-') : Char.toUpper c ≠ '-' := by
  unfold Char.toUpper
  by_cases hn : c.toNat ≥ 97 ∧ c.toNat ≤ 122
  · simp only [hn, if_true]
    obtain ⟨n, hn1, hn2, rfl⟩ : ∃ n, 97 ≤ n ∧ n ≤ 122 ∧ Char.ofNat n = c :=
      ⟨c.toNat, hn.1, hn.2, Char.ofNat_toNat c⟩
    revert hn
    interval_cases n <;> (intro _; decide)
  · simp only [hn, if_false]
    exact h

theorem constChars_segmentwise :
    ∀ l : List Char,
      l.map (fun c => if Char.toUpper c = '-' then '_' else Char.toUpper c) =
        underscoreJoin ((jsSplitDash l).map (List.map Char.toUpper)) := by
  intro l
  induction l with
  | nil => rfl
  | cons c cs ih =>
    by_cases hc : c = '-'
    · subst hc
      rw [show jsSplitDash ('-' :: cs) = [] :: jsSplitDash cs from by rw [jsSplitDash]; simp]
      rcases hsd : jsSplitDash cs with _ | ⟨s, ss⟩
      · exact absurd hsd (jsSplitDash_ne_nil cs)
      · rw [hsd] at ih
        simp only [List.map_cons, List.map_nil, underscoreJoin, List.nil_append]
        rw [List.map_cons] at ih
        rw [show ((if Char.toUpper '-' = '-' then '_' else Char.toUpper '-') : Char) = '_'
          from by decide]
        exact congrArg ('_' :: ·) ih
    · rcases hsd : jsSplitDash cs with _ | ⟨s, ss⟩
      · exact absurd hsd (jsSplitDash_ne_nil cs)
      · rw [show jsSplitDash (c :: cs) = (c :: s) :: ss from by
          rw [jsSplitDash]; simp [hc, hsd]]
        rw [hsd] at ih
        simp only [List.map_cons, if_neg (toUpper_ne_dash hc)]
        rw [List.map_cons] at ih
        cases ss with
        | nil =>
          simp only [List.map_nil, underscoreJoin] at ih ⊢
          rw [ih]
        | cons t ts =>
          simp only [List.map_cons, underscoreJoin] at ih ⊢
          rw [ih, List.cons_append]

theorem kebab_chars (s : String) (hs : validateKebabCase s = true) :
    ∀ c ∈ s.data, isLowerAlnumChar c = true ∨ c = '-' := by
  have hsegs := validateKebabCase_segments s hs
  revert hsegs
  generalize s.data = l
  intro hsegs
  induction l with
  | nil => intro c hc; simp at hc
  | cons c cs ih =>
    intro x hx
    by_cases hc : c = '-'
    · subst hc
      have hsegs' : ∀ seg ∈ jsSplitDash cs, ∀ y ∈ seg, isLowerAlnumChar y = true := by
        intro seg hseg y hy
        refine hsegs seg ?_ y hy
        rw [show jsSplitDash ('-' :: cs) = [] :: jsSplitDash cs from by rw [jsSplitDash]; simp]
        exact List.mem_cons_of_mem _ hseg
      rcases List.mem_cons.mp hx with h | h
      · exact Or.inr h
      · exact ih hsegs' x h
    · rcases hsd : jsSplitDash cs with _ | ⟨s', ss⟩
      · exact absurd hsd (jsSplitDash_ne_nil cs)
      · have hcons : jsSplitDash (c :: cs) = (c :: s') :: ss := by
          rw [jsSplitDash]; simp [hc, hsd]
        have hsegs' : ∀ seg ∈ jsSplitDash cs, ∀ y ∈ seg, isLowerAlnumChar y = true := by
          intro seg hseg y hy
          rw [hsd] at hseg
          rcases List.mem_cons.mp hseg with h | h
          · subst h
            exact hsegs (c :: seg) (by rw [hcons]; exact List.mem_cons_self _ _) y
              (List.mem_cons_of_mem c hy)
          · exact hsegs seg (by rw [hcons]; exact List.mem_cons_of_mem _ h) y hy
        rcases List.mem_cons.mp hx with h | h
        · subst h
          exact Or.inl (hsegs (x :: s') (by rw [hcons]; exact List.mem_cons_self _ _) x
            (List.mem_cons_self _ _))
        · exact ih hsegs' x h

theorem constCaseUnmap_leftInv {c : Char} (h : isLowerAlnumChar c = true ∨ c = '-') :
    constCaseUnmap (if Char.toUpper c = '-' then '_' else Char.toUpper c) = c := by
  rcases h with h | h
  · simp only [isLowerAlnumChar, isLowerAlphaChar, Bool.or_eq_true, Bool.and_eq_true,
      decide_eq_true_eq] at h
    rcases h with ⟨h1, h2⟩ | ⟨h1, h2⟩
    · obtain ⟨hb1, hb2⟩ := toNat_bounds_of_between h1 h2
      obtain ⟨n, hn1, hn2, rfl⟩ : ∃ n, 97 ≤ n ∧ n ≤ 122 ∧ Char.ofNat n = c :=
        ⟨c.toNat, hb1, hb2, Char.ofNat_toNat c⟩
      interval_cases n <;> decide
    · obtain ⟨hb1, hb2⟩ := toNat_bounds_of_between h1 h2
      obtain ⟨n, hn1, hn2, rfl⟩ : ∃ n, 48 ≤ n ∧ n ≤ 57 ∧ Char.ofNat n = c :=
        ⟨c.toNat, hb1, hb2, Char.ofNat_toNat c⟩
      interval_cases n <;> decide
  · subst h; decide

theorem toConstCase_data (s : String) :
    (toConstCase s).data =
      s.data.map fun c => if Char.toUpper c = '-' then '_' else Char.toUpper c := by
  show ((s.data.map Char.toUpper).map fun x => if x = '-' then '_' else x) = _
  rw [List.map_map]
  rfl

theorem map_constChar_inj :
    ∀ l₁ l₂ : List Char,
      (∀ c ∈ l₁, isLowerAlnumChar c = true ∨ c = '-') →
      (∀ c ∈ l₂, isLowerAlnumChar c = true ∨ c = '-') →
      l₁.map (fun c => if Char.toUpper c = '-' then '_' else Char.toUpper c) =
        l₂.map (fun c => if Char.toUpper c = '-' then '_' else Char.toUpper c) →
      l₁ = l₂ := by
  intro l₁
  induction l₁ with
  | nil =>
    intro l₂ _ _ h
    cases l₂ with
    | nil => rfl
    | cons b bs => simp at h
  | cons a as ih =>
    intro l₂ h₁ h₂ h
    cases l₂ with
    | nil => simp at h
    | cons b bs =>
      simp only [List.map_cons, List.cons.injEq] at h
      obtain ⟨hhead, htail⟩ := h
      have hab : a = b := by
        have := congrArg constCaseUnmap hhead
        rwa [constCaseUnmap_leftInv (h₁ a (List.mem_cons_self _ _)),
          constCaseUnmap_leftInv (h₂ b (List.mem_cons_self _ _))] at this
      subst hab
      exact congrArg (a :: ·)
        (ih bs (fun c hc => h₁ c (List.mem_cons_of_mem a hc))
          (fun c hc => h₂ c (List.mem_cons_of_mem a hc)) htail)

/-- Counterexample for C8's cross-check law: `toCamelCase` removes the
hyphens, so uppercasing its output (with the `-` to `_` replacement, i.e.
applying the CONST_CASE transformation to it) does not reproduce
`toConstCase` — already at `get-product`, where it yields `GETPRODUCT`
instead of `GET_PRODUCT`. -/
theorem toConstCase_camel_cross_check_fails :
    toConstCase (toCamelCase ("get-product")) ≠ toConstCase ("get-product") := by decide

/-- Amended C8: the three conversions are pure functions (determinism is
definitional); the cross-check law that actually holds is segmentwise:
`toConstCase` equals the hyphen segments (the same split used by
camelCase/PascalCase) uppercased and joined with `_`; and `toConstCase`
is injective on valid identifiers, so the CONST_CASE form uniquely
determines the identifier. -/
theorem toConstCase_amended (s t : String) (hs : validateKebabCase s = true)
    (ht : validateKebabCase t = true) :
    (toConstCase s).data = underscoreJoin ((jsSplitDash s.data).map (List.map Char.toUpper)) ∧
    (toConstCase s = toConstCase t → s = t) := by
  constructor
  · rw [toConstCase_data]
    exact constChars_segmentwise s.data
  · intro he
    apply String.ext
    have hd := congrArg String.data he
    rw [toConstCase_data, toConstCase_data] at hd
    exact map_constChar_inj s.data t.data (kebab_chars s hs) (kebab_chars t ht) hd

/-- Witness for the amended C8 at `get-product`. -/
theorem toConstCase_amended_witness :
    (toConstCase ("get-product")).data =
        underscoreJoin ((jsSplitDash ("get-product").data).map (List.map Char.toUpper)) ∧
    (toConstCase ("get-product") = toConstCase ("get-product") →
      ("get-product" : String) = "get-product") :=
  toConstCase_amended ("get-product") "get-product" (by decide) (by decide)

end Usecasegen
